import Mathlib

/-!
# imagepp: the worker dispatch loop and the image transform pipeline

A shallow embedding of `internal/workers/image.worker.go`,
`internal/services/image.operations.go`, `internal/jobs/image.job.go` and
`internal/handler/image.request.go`.

* Go `int`/`int64` values are `Int`; the conversion `int32(x)` is `toInt32`.
* Go `float64` values are rationals; every floating-point operation is the
  exact operation followed by a rounding function `rnd : ℚ → ℚ` that the
  definitions take as a parameter.
* `map[string]any` is an association list read with `GoAny.index`.
* External collaborators (Job Store, Object Store, codecs, text drawing)
  are fields of records that the definitions take as parameters; the
  stateful ones thread an explicit world state.
-/

namespace Imagepp

/-! ## Go values -/

/-- A value of Go's `any` as produced by `encoding/json` (plus `int`, which
the parameter parsers also test for). -/
inductive GoAny where
  | nil
  | bool (b : Bool)
  | float64 (x : ℚ)
  | int (n : Int)
  | string (s : String)
  | slice (xs : List GoAny)
  | map (kv : List (String × GoAny))

/-- A Go `map[string]any`; the nil map is the empty list. -/
abbrev GoMap := List (String × GoAny)

/-- Reading `m[k]`: the stored value, or the nil interface when absent. -/
def GoAny.index (m : GoMap) (k : String) : GoAny :=
  match m.lookup k with
  | some v => v
  | none => GoAny.nil

/-- The comma-ok assertion `v.(string)`. -/
def GoAny.asString : GoAny → Option String
  | GoAny.string s => some s
  | _ => none

/-- The comma-ok assertion `v.(float64)`. -/
def GoAny.asFloat64 : GoAny → Option ℚ
  | GoAny.float64 x => some x
  | _ => none

/-- The comma-ok assertion `v.(int)`. -/
def GoAny.asInt : GoAny → Option Int
  | GoAny.int n => some n
  | _ => none

/-- The comma-ok assertion `v.(map[string]any)`. -/
def GoAny.asMap : GoAny → Option GoMap
  | GoAny.map kv => some kv
  | _ => none

/-- The conversion `int32(x)` of an `int64`: wrap-around to 32 bits, signed. -/
def toInt32 (x : Int) : Int :=
  (x + 2 ^ 31) % 2 ^ 32 - 2 ^ 31

/-- The conversion `int(x)` of a `float64`: truncation toward zero. A value
outside the `int64` range has an implementation-dependent result in Go; the
amd64 result (the minimum `int64`) is used. -/
def floatToInt (x : ℚ) : Int :=
  let t := Int.tdiv x.num (x.den : Int)
  if -(2 ^ 63) ≤ t ∧ t < 2 ^ 63 then t else -(2 ^ 63)

/-- The verb `%d` of `fmt.Sprintf` applied to an integer: decimal digits,
with a leading minus sign for a negative number. -/
def fmtD (n : Int) : String :=
  toString n

/-! ## Operation parameters (`image.operations.go`, `image.worker.go`) -/

/-- The struct `services.CompressParams`. -/
structure CompressParams where
  Quality : Int
  Format : String
  MaxWidth : Int
  MaxHeight : Int
  deriving DecidableEq, Repr

/-- The struct `services.WatermarkParams`. -/
structure WatermarkParams where
  Text : String
  Position : String
  Opacity : ℚ
  FontSize : ℚ
  Color : String
  deriving DecidableEq, Repr

/-- The integer field pattern of `parseCompressParams`:
`if v, ok := params[k].(float64); ok { f = int(v) } else if n, ok := params[k].(int); ok { f = n }`. -/
def intField (params : GoMap) (k : String) (dflt : Int) : Int :=
  match (GoAny.index params k).asFloat64 with
  | some v => floatToInt v
  | none =>
    match (GoAny.index params k).asInt with
    | some n => n
    | none => dflt

/-- The string field pattern: `if v, ok := params[k].(string); ok { f = v }`. -/
def stringField (params : GoMap) (k : String) (dflt : String) : String :=
  match (GoAny.index params k).asString with
  | some v => v
  | none => dflt

/-- The function `parseCompressParams` of `image.worker.go`. -/
def parseCompressParams (params : GoMap) : CompressParams :=
  { Quality := intField params "quality" 85
    Format := stringField params "format" "jpeg"
    MaxWidth := intField params "max_width" 0
    MaxHeight := intField params "max_height" 0 }

/-- The float field pattern of `parseWatermarkParams` for `font_size`:
a `float64` is taken as is, an `int` is converted (rounded) to `float64`. -/
def floatOrIntField (rnd : ℚ → ℚ) (params : GoMap) (k : String) (dflt : ℚ) : ℚ :=
  match (GoAny.index params k).asFloat64 with
  | some v => v
  | none =>
    match (GoAny.index params k).asInt with
    | some n => rnd (n : ℚ)
    | none => dflt

/-- The float field pattern for `opacity`: only a `float64` is accepted. -/
def floatField (params : GoMap) (k : String) (dflt : ℚ) : ℚ :=
  match (GoAny.index params k).asFloat64 with
  | some v => v
  | none => dflt

/-- The function `parseWatermarkParams` of `image.worker.go`. -/
def parseWatermarkParams (rnd : ℚ → ℚ) (params : GoMap) : WatermarkParams :=
  { Text := stringField params "text" "Watermark"
    Position := stringField params "position" "bottom-right"
    Opacity := floatField params "opacity" (1 / 2)
    FontSize := floatOrIntField rnd params "font_size" 24
    Color := stringField params "color" "#FFFFFF" }

/-- The operation type read by `opType, _ := op["type"].(string)`: the empty
string when the key is absent or not a string. -/
def opType (op : GoMap) : String :=
  match (GoAny.index op "type").asString with
  | some s => s
  | none => ""

/-- The second loop of `HandleImagePP` (lines 97-106): the configuration
starts as quality 85, format jpeg; the first entry whose type is "compress"
replaces it and ends the loop (`break`). The assertion
`op["params"].(map[string]any)` has no comma-ok form, so it panics when the
value is not a map: that is `none`. -/
def compressParamsOf : List GoMap → Option CompressParams
  | [] => some { Quality := 85, Format := "jpeg", MaxWidth := 0, MaxHeight := 0 }
  | op :: rest =>
    if opType op = "compress" then
      match (GoAny.index op "params").asMap with
      | some m => some (parseCompressParams m)
      | none => none
    else compressParamsOf rest

/-- Lines 119-123 of `HandleImagePP`: the extension is the format, with
"jpeg" replaced by "jpg"; the key is `processed/%d.%s`. -/
def outputKey (imageID : Int) (format : String) : String :=
  let ext := if format = "jpeg" then "jpg" else format
  "processed/" ++ fmtD imageID ++ "." ++ ext

/-! ## Encoding (`Compress`, `image.operations.go`) -/

/-- Encoded image data. -/
abbrev Bytes := List UInt8

/-- A Go `error` value: one returned by a collaborator, one built by
`fmt.Errorf` without `%w`, or one built by `fmt.Errorf("<text>: %w", cause)`. -/
inductive GoError where
  | external (what : String)
  | errorf (text : String)
  | wrapf (text : String) (cause : GoError)
  deriving DecidableEq, Repr

/-- The cause chain of an error (`errors.Unwrap`, repeated): the error itself
first, the innermost cause last. -/
def GoError.chain : GoError → List GoError
  | GoError.wrapf t c => GoError.wrapf t c :: c.chain
  | e => [e]

/-- The compression levels of `image/png`. -/
inductive PngCompressionLevel where
  | DefaultCompression
  | NoCompression
  | BestSpeed
  | BestCompression
  deriving DecidableEq, Repr

/-- The library calls made by `Compress`: `imaging.Fit(img, w, h, imaging.Lanczos)`,
`jpeg.Encode(out, img, &jpeg.Options{Quality: q})` and
`png.Encoder{CompressionLevel: l}.Encode(out, img)`. -/
structure Codec (Img : Type) where
  fit : Img → Int → Int → Img
  jpegEncode : Img → Int → Except GoError Bytes
  pngEncode : PngCompressionLevel → Img → Except GoError Bytes

/-- The resizing step of `Compress` (lines 36-39). -/
def resizeFor {Img : Type} (codec : Codec Img) (img : Img) (params : CompressParams) : Img :=
  if params.MaxWidth > 0 ∨ params.MaxHeight > 0 then
    codec.fit img params.MaxWidth params.MaxHeight
  else img

/-- The function `Compress` of `image.operations.go`; the result is the
content written to `out`, or the encoder's error. -/
def Compress {Img : Type} (codec : Codec Img) (img : Img) (params : CompressParams) :
    Except GoError Bytes :=
  let img := resizeFor codec img params
  if params.Format = "jpeg" ∨ params.Format = "jpg" then
    let quality := if params.Quality < 1 ∨ params.Quality > 100 then 85 else params.Quality
    codec.jpegEncode img quality
  else if params.Format = "png" then
    codec.pngEncode PngCompressionLevel.DefaultCompression img
  else
    codec.jpegEncode img 85

/-! ## Colour parsing (`parseColor`, `image.operations.go`) -/

/-- The struct `color.RGBA`. -/
structure RGBA where
  R : Nat
  G : Nat
  B : Nat
  A : Nat
  deriving DecidableEq, Repr

/-- The function `isSpace` of package `fmt` (its table of space runes). -/
def isSpace (c : Char) : Bool :=
  let r := c.toNat
  (0x0009 ≤ r && r ≤ 0x000d) || r == 0x0020 || r == 0x0085 || r == 0x00a0 ||
  r == 0x1680 || (0x2000 ≤ r && r ≤ 0x200a) || r == 0x2028 || r == 0x2029 ||
  r == 0x202f || r == 0x205f || r == 0x3000

/-- The method `SkipSpace` of the scanner as `Sscanf` runs it (newlines are
not spaces): a newline is the error "unexpected newline" (`none`); other
space runes are consumed. -/
def skipSpace : List Char → Option (List Char)
  | [] => some []
  | c :: rest =>
    if c = '\n' then none
    else if isSpace c then skipSpace rest
    else some (c :: rest)

/-- The value of a rune of `hexadecimalDigits`, `none` for any other rune. -/
def hexDigit (c : Char) : Option Nat :=
  let r := c.toNat
  if 48 ≤ r ∧ r ≤ 57 then some (r - 48)
  else if 97 ≤ r ∧ r ≤ 102 then some (r - 87)
  else if 65 ≤ r ∧ r ≤ 70 then some (r - 55)
  else none

/-- One verb `%02x` scanned into a `*uint8`: spaces are skipped, then one or
two hexadecimal digits are read (the width 2 limits the token). The result
is the value and the remaining input, or `none` when the scan stops with an
error (newline, end of input, or no digit). -/
def scanHex2 (input : List Char) : Option (Nat × List Char) :=
  match skipSpace input with
  | none => none
  | some [] => none
  | some (c :: rest) =>
    match hexDigit c with
    | none => none
    | some hi =>
      match rest with
      | [] => some (hi, [])
      | d :: rest2 =>
        match hexDigit d with
        | some lo => some (16 * hi + lo, rest2)
        | none => some (hi, d :: rest2)

/-- The call `fmt.Sscanf(hex, "%02x%02x%02x", &r, &g, &b)` with `r`, `g`, `b`
zero beforehand: the verbs are scanned in turn and the first error ends the
scan, leaving the later variables untouched. The returned count and error
are discarded by the caller. -/
def sscanfHex3 (input : List Char) : Nat × Nat × Nat :=
  match scanHex2 input with
  | none => (0, 0, 0)
  | some (r, in1) =>
    match scanHex2 in1 with
    | none => (r, 0, 0)
    | some (g, in2) =>
      match scanHex2 in2 with
      | none => (r, g, 0)
      | some (b, _) => (r, g, b)

/-- The byte length `len(s)` of a Go string holding these runes. -/
def goLen (cs : List Char) : Nat :=
  (cs.map Char.utf8Size).sum

/-- The statement `if hex[0] == '#' { hex = hex[1:] }` on a non-empty string. -/
def stripHash : List Char → List Char
  | c :: rest => if c = '#' then rest else c :: rest
  | [] => []

/-- The function `parseColor` of `image.operations.go`. -/
def parseColor (hex : String) : RGBA :=
  if goLen hex.data = 0 then { R := 255, G := 255, B := 255, A := 255 }
  else
    let hex := stripHash hex.data
    if goLen hex ≠ 6 then { R := 255, G := 255, B := 255, A := 255 }
    else
      let rgb := sscanfHex3 hex
      { R := rgb.1, G := rgb.2.1, B := rgb.2.2, A := 255 }

/-! ## Watermark (`ApplyWatermark`, `image.operations.go`) -/

/-- The `switch params.Position` of `ApplyWatermark` (lines 91-105): the
anchor `(x, y)` from the canvas size and the measured text size. `rnd` is
the rounding of `float64` arithmetic: `float64(width)` is `rnd width` and
each operation is the exact one followed by `rnd`. -/
def anchor (rnd : ℚ → ℚ) (width height : Int) (tw th : ℚ) (position : String) : ℚ × ℚ :=
  let w : ℚ := rnd (width : ℚ)
  let h : ℚ := rnd (height : ℚ)
  if position = "top-left" then (20, rnd (20 + th))
  else if position = "top-right" then (rnd (rnd (w - tw) - 20), rnd (20 + th))
  else if position = "bottom-left" then (20, rnd (h - 20))
  else if position = "bottom-right" then (rnd (rnd (w - tw) - 20), rnd (h - 20))
  else if position = "center" then (rnd (rnd (w - tw) / 2), rnd (rnd (h + th) / 2))
  else (rnd (rnd (w - tw) - 20), rnd (h - 20))

/-- The expression `uint8(math.Max(0, math.Min(255, opacity*255)))`. -/
def alphaOf (rnd : ℚ → ℚ) (opacity : ℚ) : Nat :=
  (floatToInt (max 0 (min 255 (rnd (opacity * 255))))).toNat

/-- The drawing calls made by `ApplyWatermark`: the size of `img.Bounds()`,
`dc.MeasureString(text)` after `dc.LoadFontFace("lato", fontSize)`, and the
copy into a new RGBA image followed by `dc.SetColor`, `dc.DrawStringAnchored(text, x, y, 0, 0.5)`
and `dc.Clip()`. -/
structure Gfx (Img : Type) where
  Dx : Img → Int
  Dy : Img → Int
  measureString : ℚ → String → ℚ × ℚ
  drawStringAnchored : Img → ℚ → RGBA → String → ℚ → ℚ → Img

/-- Lines 70-74 of `ApplyWatermark`: a font size below 1 is replaced by 24. -/
def fontSizeOf (params : WatermarkParams) : ℚ :=
  if params.FontSize < 1 then 24 else params.FontSize

/-- Lines 80-83 of `ApplyWatermark`: the parsed colour with its alpha
replaced by the one computed from the opacity. -/
def textColorOf (rnd : ℚ → ℚ) (params : WatermarkParams) : RGBA :=
  let c := parseColor params.Color
  { R := c.R, G := c.G, B := c.B, A := alphaOf rnd params.Opacity }

/-- The function `ApplyWatermark` of `image.operations.go`. -/
def ApplyWatermark {Img : Type} (gfx : Gfx Img) (rnd : ℚ → ℚ) (img : Img)
    (params : WatermarkParams) : Except GoError Img :=
  let width := gfx.Dx img
  let height := gfx.Dy img
  let fontSize := fontSizeOf params
  let textColor := textColorOf rnd params
  let text := params.Text
  let m := gfx.measureString fontSize text
  let xy := anchor rnd width height m.1 m.2 params.Position
  Except.ok (gfx.drawStringAnchored img fontSize textColor text xy.1 xy.2)

/-! ## The worker (`HandleImagePP`, `image.worker.go`) -/

/-- The struct `jobs.Job` of `image.job.go`, the task envelope. -/
structure Job where
  ImageID : Int
  UserID : Int
  BucketName : String
  ImageKey : String
  Operations : List GoMap

/-- What `HandleImagePP` runs against, with world state `σ`:
`json.Unmarshal` of the task payload, `Queries.UpdateImageStatus` (Job
Store), `services.NewS3Service`, `Download` and `Upload` of the service
bound to a bucket (Object Store), `image.Decode`, and the two functions of
package `services`. The worker is stated over arbitrary implementations of
`ApplyWatermark` and `Compress`; `Env.withServices` sets them to the
functions of `image.operations.go`. -/
structure Env (σ Img : Type) where
  rnd : ℚ → ℚ
  unmarshal : Bytes → Except GoError Job
  UpdateImageStatus : σ → Int → String → Option GoError × σ
  NewS3Service : σ → String → Option GoError × σ
  Download : σ → String → String → Except GoError Bytes × σ
  Upload : σ → String → String → Bytes → Option GoError × σ
  Decode : Bytes → Except GoError Img
  ApplyWatermark : Img → WatermarkParams → Except GoError Img
  Compress : Img → CompressParams → Except GoError Bytes

/-- The environment whose `ApplyWatermark` and `Compress` are the functions
of `image.operations.go` over the given drawing and codec libraries. -/
def Env.withServices {σ Img : Type} (env : Env σ Img) (gfx : Gfx Img) (codec : Codec Img) :
    Env σ Img :=
  { env with
    ApplyWatermark := fun img wp => Imagepp.ApplyWatermark gfx env.rnd img wp
    Compress := fun img cp => Imagepp.Compress codec img cp }

/-- A call made by the worker, with the error it returned (`none` is the
nil error). -/
inductive Event where
  | updateImageStatus (id : Int) (status : String) (err : Option GoError)
  | newS3Service (bucket : String) (err : Option GoError)
  | download (bucket key : String) (err : Option GoError)
  | decode (err : Option GoError)
  | applyWatermark (wp : WatermarkParams) (err : Option GoError)
  | compress (cp : CompressParams) (err : Option GoError)
  | upload (bucket key : String) (data : Bytes) (err : Option GoError)
  deriving DecidableEq, Repr

/-- How a run of the handler ends: it returns nil, returns an error, or
aborts with a run-time panic. -/
inductive Outcome where
  | ok
  | error (e : GoError)
  | panic
  deriving DecidableEq, Repr

/-- A run of the handler: the final world state, the calls made in order,
and how the run ended. -/
structure Run (σ : Type) where
  world : σ
  log : List Event
  outcome : Outcome

/-- The run `r` preceded by the calls `evs`. -/
def Run.after {σ : Type} (evs : List Event) (r : Run σ) : Run σ :=
  { r with log := evs ++ r.log }

/-- The status values written to the Job Store, in order. -/
def statusWrites : List Event → List String
  | [] => []
  | Event.updateImageStatus _ s _ :: rest => s :: statusWrites rest
  | _ :: rest => statusWrites rest

/-- The status values whose write returned a nil error, in order. -/
def committedWrites : List Event → List String
  | [] => []
  | Event.updateImageStatus _ s none :: rest => s :: committedWrites rest
  | _ :: rest => committedWrites rest

/-- The failure epilogue repeated in `HandleImagePP`:
`_ = Queries.UpdateImageStatus(ctx, {ID: int32(p.ImageID), Status: "failed"})`
followed by `return fmt.Errorf(...)`; the result of the write is discarded. -/
def markFailed {σ Img : Type} (env : Env σ Img) (w : σ) (p : Job) (e : GoError) : Run σ :=
  let r := env.UpdateImageStatus w (toInt32 p.ImageID) "failed"
  { world := r.2
    log := [Event.updateImageStatus (toInt32 p.ImageID) "failed" r.1]
    outcome := Outcome.error e }

/-- The parameters read by `params, _ := op["params"].(map[string]any)`: the
nil map when the value is absent or not a map. -/
def opParams (op : GoMap) : GoMap :=
  match (GoAny.index op "params").asMap with
  | some m => m
  | none => []

/-- The first loop of `HandleImagePP` (lines 72-94): each entry of type
"watermark" is applied to the current image, the first error ends the loop,
and every other entry is skipped. The result is the calls made and the final
image or the error. -/
def applyOps {σ Img : Type} (env : Env σ Img) : Img → List GoMap → List Event × Except GoError Img
  | img, [] => ([], Except.ok img)
  | img, op :: rest =>
    if opType op = "watermark" then
      let wp := parseWatermarkParams env.rnd (opParams op)
      match env.ApplyWatermark img wp with
      | Except.error e => ([Event.applyWatermark wp (some e)], Except.error e)
      | Except.ok img2 =>
        let r := applyOps env img2 rest
        (Event.applyWatermark wp none :: r.1, r.2)
    else applyOps env img rest

/-- Lines 137-145: the write of "completed" and the return. -/
def completeStage {σ Img : Type} (env : Env σ Img) (w : σ) (p : Job) : Run σ :=
  let r := env.UpdateImageStatus w (toInt32 p.ImageID) "completed"
  { world := r.2
    log := [Event.updateImageStatus (toInt32 p.ImageID) "completed" r.1]
    outcome :=
      match r.1 with
      | some e => Outcome.error (GoError.wrapf "failed to update image status to completed" e)
      | none => Outcome.ok }

/-- Lines 118-132: the output key and the upload. -/
def uploadStage {σ Img : Type} (env : Env σ Img) (w : σ) (p : Job) (cp : CompressParams)
    (data : Bytes) : Run σ :=
  let key := outputKey p.ImageID cp.Format
  let r := env.Upload w p.BucketName key data
  match r.1 with
  | some e =>
    (markFailed env r.2 p (GoError.wrapf "failed to upload processed image" e)).after
      [Event.upload p.BucketName key data (some e)]
  | none =>
    (completeStage env r.2 p).after [Event.upload p.BucketName key data none]

/-- Lines 96-116: the compress configuration and the encoding. -/
def encodeStage {σ Img : Type} (env : Env σ Img) (w : σ) (p : Job) (img : Img) : Run σ :=
  match compressParamsOf p.Operations with
  | none => { world := w, log := [], outcome := Outcome.panic }
  | some cp =>
    match env.Compress img cp with
    | Except.error e =>
      (markFailed env w p (GoError.wrapf "failed to encode image" e)).after
        [Event.compress cp (some e)]
    | Except.ok data =>
      (uploadStage env w p cp data).after [Event.compress cp none]

/-- Lines 72-94: the operations loop and its error exit. -/
def opsStage {σ Img : Type} (env : Env σ Img) (w : σ) (p : Job) (img : Img) : Run σ :=
  let r := applyOps env img p.Operations
  match r.2 with
  | Except.error e =>
    (markFailed env w p (GoError.wrapf "failed to apply watermark" e)).after r.1
  | Except.ok img2 => (encodeStage env w p img2).after r.1

/-- Lines 62-70: the decoding. -/
def decodeStage {σ Img : Type} (env : Env σ Img) (w : σ) (p : Job) (imageData : Bytes) : Run σ :=
  match env.Decode imageData with
  | Except.error e =>
    (markFailed env w p (GoError.wrapf "failed to decode image" e)).after
      [Event.decode (some e)]
  | Except.ok img => (opsStage env w p img).after [Event.decode none]

/-- Lines 52-60: the download. -/
def downloadStage {σ Img : Type} (env : Env σ Img) (w : σ) (p : Job) : Run σ :=
  let r := env.Download w p.BucketName p.ImageKey
  match r.1 with
  | Except.error e =>
    (markFailed env r.2 p (GoError.wrapf "failed to download image" e)).after
      [Event.download p.BucketName p.ImageKey (some e)]
  | Except.ok imageData =>
    (decodeStage env r.2 p imageData).after [Event.download p.BucketName p.ImageKey none]

/-- Lines 39-50: the creation of the object-store service. -/
def serviceStage {σ Img : Type} (env : Env σ Img) (w : σ) (p : Job) : Run σ :=
  let r := env.NewS3Service w p.BucketName
  match r.1 with
  | some e =>
    (markFailed env r.2 p (GoError.wrapf "failed to create S3 service" e)).after
      [Event.newS3Service p.BucketName (some e)]
  | none => (downloadStage env r.2 p).after [Event.newS3Service p.BucketName none]

/-- Lines 31-37 and what follows: the write of "processing", then the
pipeline. -/
def processingStage {σ Img : Type} (env : Env σ Img) (w : σ) (p : Job) : Run σ :=
  let r := env.UpdateImageStatus w (toInt32 p.ImageID) "processing"
  match r.1 with
  | some e =>
    { world := r.2
      log := [Event.updateImageStatus (toInt32 p.ImageID) "processing" (some e)]
      outcome := Outcome.error (GoError.wrapf "failed to update image status to processing" e) }
  | none =>
    (serviceStage env r.2 p).after [Event.updateImageStatus (toInt32 p.ImageID) "processing" none]

/-- The validation of line 27: all three required fields are present. -/
def validJob (p : Job) : Prop :=
  ¬ (p.ImageID = 0 ∨ p.BucketName = "" ∨ p.ImageKey = "")

instance (p : Job) : Decidable (validJob p) := by
  unfold validJob; infer_instance

/-- The function `HandleImagePP` of `image.worker.go`, run on a task
payload in world state `w`. -/
def HandleImagePP {σ Img : Type} (env : Env σ Img) (w : σ) (payload : Bytes) : Run σ :=
  match env.unmarshal payload with
  | Except.error e =>
    { world := w, log := [], outcome := Outcome.error (GoError.wrapf "failed to unmarshal job payload" e) }
  | Except.ok p =>
    if p.ImageID = 0 ∨ p.BucketName = "" ∨ p.ImageKey = "" then
      { world := w, log := []
        outcome := Outcome.error (GoError.errorf "invalid job payload: missing required fields") }
    else processingStage env w p

/-! ## Predicates on runs -/

/-- Whether a call is a status write to the Job Store. -/
def Event.isStatus : Event → Bool
  | Event.updateImageStatus _ _ _ => true
  | _ => false

/-- The error returned by an object-store call or a pipeline step (creation
of the service, download, decode, watermark, encode, upload), if it failed. -/
def Event.failure : Event → Option GoError
  | Event.updateImageStatus _ _ _ => none
  | Event.newS3Service _ err => err
  | Event.download _ _ err => err
  | Event.decode err => err
  | Event.applyWatermark _ err => err
  | Event.compress _ err => err
  | Event.upload _ _ _ err => err

/-- What each call of a run on the envelope `p` is made with: status writes
address row `int32(p.ImageID)`, the object store is used with the bucket and
key of the envelope, the encoder gets the configuration of
`compressParamsOf`, and the upload key is `outputKey` of that
configuration's format. -/
def EventOK (p : Job) : Event → Prop
  | Event.updateImageStatus id _ _ => id = toInt32 p.ImageID
  | Event.newS3Service b _ => b = p.BucketName
  | Event.download b k _ => b = p.BucketName ∧ k = p.ImageKey
  | Event.decode _ => True
  | Event.applyWatermark _ _ => True
  | Event.compress cp _ => compressParamsOf p.Operations = some cp
  | Event.upload b k _ _ =>
    b = p.BucketName ∧
      ∃ cp, compressParamsOf p.Operations = some cp ∧ k = outputKey p.ImageID cp.Format

/-- The shape of the calls that follow the write of "processing": calls
that are not status writes, then nothing more, or one write of "failed", or
(right after a successful upload) one write of "completed". -/
def TailShape (log : List Event) : Prop :=
  ∃ calls : List Event, (∀ ev ∈ calls, ev.isStatus = false) ∧
    (log = calls ∨
     (∃ id err, log = calls ++ [Event.updateImageStatus id "failed" err]) ∨
     (∃ id err c b k d, calls = c ++ [Event.upload b k d none] ∧
        log = calls ++ [Event.updateImageStatus id "completed" err]))

/-- A run that handles failures as the worker promises: whenever a call of
the log failed with `e`, the log ends with a write of "failed" to row
`int32(p.ImageID)` and the run returns an error wrapping `e`. -/
def FailureHandled {σ : Type} (p : Job) (r : Run σ) : Prop :=
  ∀ ev ∈ r.log, ∀ e, ev.failure = some e →
    (∃ pre err, r.log = pre ++ [Event.updateImageStatus (toInt32 p.ImageID) "failed" err]) ∧
    ∃ text, r.outcome = Outcome.error (GoError.wrapf text e)

/-! ## A concrete environment -/

/-- An environment over a trivial world in which every collaborator
succeeds: the payload deserializes to `p`, the download yields three bytes,
images are numbers, a watermark adds one and the encoder yields one byte. -/
def okEnv (p : Job) : Env Unit Nat :=
  { rnd := id
    unmarshal := fun _ => Except.ok p
    UpdateImageStatus := fun w _ _ => (none, w)
    NewS3Service := fun w _ => (none, w)
    Download := fun w _ _ => (Except.ok [1, 2, 3], w)
    Upload := fun w _ _ _ => (none, w)
    Decode := fun _ => Except.ok 0
    ApplyWatermark := fun img _ => Except.ok (img + 1)
    Compress := fun _ _ => Except.ok [7] }

/-- An operation entry `{"type": t, "params": {...}}`. -/
def mkOp (t : String) (params : GoMap) : GoMap :=
  [("type", GoAny.string t), ("params", GoAny.map params)]

/-- An envelope with job ID 7 and the given operations. -/
def job7 (ops : List GoMap) : Job :=
  { ImageID := 7, UserID := 1, BucketName := "b", ImageKey := "k.jpg", Operations := ops }

/-- The parameters of the first entry of `twoCompress`. -/
def firstCompressParams : GoMap :=
  [("quality", GoAny.float64 10), ("format", GoAny.string "png"),
    ("max_width", GoAny.float64 100), ("max_height", GoAny.float64 50)]

/-- The parameters of the second entry of `twoCompress`. -/
def secondCompressParams : GoMap :=
  [("quality", GoAny.float64 90), ("format", GoAny.string "jpeg"),
    ("max_width", GoAny.float64 800), ("max_height", GoAny.float64 600)]

/-- Two compress entries with different parameters. -/
def twoCompress : List GoMap :=
  [mkOp "compress" firstCompressParams, mkOp "compress" secondCompressParams]

/-- A single watermark entry (scenario A of the specification). -/
def oneWatermark : List GoMap :=
  [mkOp "watermark" [("text", GoAny.string "Test"), ("position", GoAny.string "center"),
    ("opacity", GoAny.float64 (1 / 2))]]

/-- An environment in which the download fails and the write of "failed"
fails too. -/
def downloadFailsEnv (p : Job) : Env Unit Nat :=
  { okEnv p with
    UpdateImageStatus := fun w _ s =>
      (if s = "failed" then some (GoError.external "db down") else none, w)
    Download := fun w _ _ => (Except.error (GoError.external "no such key"), w) }

/-- An environment in which the payload does not deserialize. -/
def badPayloadEnv : Env Unit Nat :=
  { okEnv (job7 []) with
    unmarshal := fun _ => Except.error (GoError.external "unexpected end of JSON input") }

/-- An envelope whose job ID is zero. -/
def jobZero : Job :=
  { ImageID := 0, UserID := 1, BucketName := "b", ImageKey := "k.jpg", Operations := [] }

/-- A codec over number images whose output shows the encoder and the
quality used: the JPEG encoder yields the bytes `FF D8` and the quality, the
PNG encoder the bytes `89 50`; resizing leaves the image as it is. -/
def tagCodec : Codec Nat :=
  { fit := fun img _ _ => img
    jpegEncode := fun _ q => Except.ok [255, 216, UInt8.ofNat q.toNat]
    pngEncode := fun _ _ => Except.ok [137, 80] }

/-- A drawing library over number images: text measures 10 x 10 and drawing
adds one to the image. -/
def tagGfx : Gfx Nat :=
  { Dx := fun _ => 200
    Dy := fun _ => 200
    measureString := fun _ _ => (10, 10)
    drawStringAnchored := fun img _ _ _ _ _ => img + 1 }

/-- A single compress entry asking for format "webp". -/
def webpCompress : List GoMap :=
  [mkOp "compress" [("quality", GoAny.float64 80), ("format", GoAny.string "webp")]]

/-! ## The operation list: order of the entries -/

/-- The entries of type "watermark", in their order in the list. -/
def watermarkEntries (ops : List GoMap) : List GoMap :=
  ops.filter (fun op => decide (opType op = "watermark"))

/-- The entries of type "compress", in their order in the list. -/
def compressEntries (ops : List GoMap) : List GoMap :=
  ops.filter (fun op => decide (opType op = "compress"))

/-- Stated from the specification's words ("watermark operations apply in
submitted order, each producing a new raster"): the left fold of
`ApplyWatermark` over the parsed parameters of the watermark entries, ended
by the first error. -/
def watermarkFold {σ Img : Type} (env : Env σ Img) (img : Img) (ops : List GoMap) :
    Except GoError Img :=
  List.foldlM (fun i wp => env.ApplyWatermark i wp) img
    ((watermarkEntries ops).map (fun op => parseWatermarkParams env.rnd (opParams op)))

/-- Whether a call is a step of the transform pipeline proper: a watermark
or the encoding. -/
def Event.isTransform : Event → Bool
  | Event.applyWatermark _ _ => true
  | Event.compress _ _ => true
  | _ => false

/-- The watermark and encoding calls of a run, in order. -/
def transformCalls (log : List Event) : List Event :=
  log.filter Event.isTransform

/-- Whether a call is a watermark. -/
def Event.isWatermark : Event → Bool
  | Event.applyWatermark _ _ => true
  | _ => false

/-- A compress entry without a "params" key: `{"type": "compress"}`. -/
def compressNoParams : List GoMap :=
  [[("type", GoAny.string "compress")]]

/-- A compress entry whose params is JSON null. -/
def compressNullParams : List GoMap :=
  [[("type", GoAny.string "compress"), ("params", GoAny.nil)]]

/-- A watermark entry without a "params" key: `{"type": "watermark"}`. -/
def watermarkNoParams : List GoMap :=
  [[("type", GoAny.string "watermark")]]

/-- Watermark "A", an entry of unknown type, a compress entry asking for
png, watermark "B". -/
def mixedOps : List GoMap :=
  [ mkOp "watermark" [("text", GoAny.string "A")],
    mkOp "sharpen" [],
    mkOp "compress" [("format", GoAny.string "png")],
    mkOp "watermark" [("text", GoAny.string "B")] ]

/-- The entries of `mixedOps` with the compress entry moved to the front and
the entry of unknown type moved to the end. -/
def mixedOpsReordered : List GoMap :=
  [ mkOp "compress" [("format", GoAny.string "png")],
    mkOp "watermark" [("text", GoAny.string "A")],
    mkOp "watermark" [("text", GoAny.string "B")],
    mkOp "sharpen" [] ]

/-- An envelope whose job ID is 2^32 + 7, which does not fit 32 bits. -/
def jobWide : Job :=
  { ImageID := 4294967303, UserID := 1, BucketName := "b", ImageKey := "k.jpg",
    Operations := [] }


/-- The transform calls of a run on the envelope `p`: watermark calls, then
at most one encoding call, made with the configuration of
`compressParamsOf`. -/
def TransformShape (p : Job) (log : List Event) : Prop :=
  ∃ ws : List Event, (∀ ev ∈ ws, ev.isWatermark = true) ∧
    (transformCalls log = ws ∨
     ∃ cp err, compressParamsOf p.Operations = some cp ∧
       transformCalls log = ws ++ [Event.compress cp err])


/-- A watermark entry followed by a compress entry without a "params" key. -/
def watermarkThenBareCompress : List GoMap :=
  [mkOp "watermark" [("text", GoAny.string "A")], [("type", GoAny.string "compress")]]

/-- A compress entry whose params is a JSON string. -/
def compressStringParams : List GoMap :=
  [[("type", GoAny.string "compress"), ("params", GoAny.string "quality=80")]]


/-- An environment with two payloads: the empty payload deserializes to job
7 with `mixedOpsReordered`, every other payload to job 7 with `mixedOps`. -/
def reorderEnv : Env Unit Nat :=
  { okEnv (job7 mixedOps) with
    unmarshal := fun b =>
      if b = [] then Except.ok (job7 mixedOpsReordered) else Except.ok (job7 mixedOps) }

/-- An envelope whose job ID is 2^32, which `int32` turns into 0. -/
def jobWideZero : Job :=
  { ImageID := 4294967296, UserID := 1, BucketName := "b", ImageKey := "k.jpg",
    Operations := [] }


/-! ## The submission handler (`ProcessImage`, `image.request.go`) -/

/-- The text `err.Error()` of an error. -/
def GoError.message : GoError → String
  | GoError.external what => what
  | GoError.errorf text => text
  | GoError.wrapf text cause => text ++ ": " ++ cause.message

/-- The sentinel `pgx.ErrNoRows`. -/
def ErrNoRows : GoError :=
  GoError.external "no rows in result set"

/-- The constant `TypeImageProcess` of `image.job.go`. -/
def TypeImageProcess : String :=
  "process:image"

/-- The struct `Operation` of `image.request.go`. -/
structure Operation where
  Type_ : String
  Params : GoMap

/-- The struct `ProcessImageRequest` of `image.request.go`. -/
structure ProcessImageRequest where
  Email : String
  BucketName : String
  ImageKey : String
  Operations : List Operation

/-- Modelled from the spec: the row type `db.User` of the generated query
package, which is not among the sources; the fields are those the handler
reads (`ID` is an `int32`). -/
structure User where
  ID : Int
  Email : String
  deriving DecidableEq, Repr

/-- Modelled from the spec: the row type `db.Image` of the generated query
package (the Job row); the handler reads its `ID`, an `int32`. -/
structure Image where
  ID : Int
  deriving DecidableEq, Repr

/-- Modelled from the spec: the struct `db.CreateImageParams` as the handler
fills it; the two timestamps (`time.Now()`) are left out. -/
structure CreateImageParams where
  UserID : Int
  BucketName : String
  ImageKey : String
  Status : String
  deriving DecidableEq, Repr

/-- The options `asynq.MaxRetry`, `asynq.Timeout` (in minutes) and
`asynq.Queue` given to `Enqueue`. -/
structure EnqueueOptions where
  MaxRetry : Nat
  TimeoutMinutes : Nat
  Queue : String
  deriving DecidableEq, Repr

/-- The dynamic type of the `client any` given to `EnqueueImageJob`. -/
inductive ClientKind where
  | schedulerClient
  | unsupported (typeName : String)
  deriving DecidableEq, Repr

/-- What `ProcessImage` runs against, with world state `σ`: the JSON decoding
of the request body, `validate.Struct`, the three queries of the Job Store,
`json.Marshal` of the envelope and `scheduler.Client.Enqueue`. -/
structure HandlerEnv (σ : Type) where
  decodeRequest : Bytes → Except GoError ProcessImageRequest
  validateStruct : ProcessImageRequest → Option GoError
  GetUserByEmail : σ → String → Except GoError User × σ
  CreateUser : σ → String → Except GoError User × σ
  CreateImage : σ → CreateImageParams → Except GoError Image × σ
  marshalJob : Job → Except GoError Bytes
  Enqueue : σ → String → Bytes → EnqueueOptions → Option GoError × σ

/-- A call made by the handler, with the error it returned. -/
inductive HEvent where
  | getUserByEmail (email : String) (err : Option GoError)
  | createUser (email : String) (err : Option GoError)
  | createImage (params : CreateImageParams) (err : Option GoError)
  | enqueue (taskType : String) (payload : Bytes) (opts : EnqueueOptions)
      (err : Option GoError)
  deriving DecidableEq, Repr

/-- The struct `StatusResponse` of `helper.go`, without its timestamps. -/
structure StatusResponse where
  ImageID : Int
  UserID : Int
  BucketName : String
  ImageKey : String
  Status : String
  deriving DecidableEq, Repr

/-- The JSON body of a response: `ErrorResponse` or `StatusResponse`. -/
inductive ResponseBody where
  | error (message : String)
  | status (r : StatusResponse)
  deriving DecidableEq, Repr

/-- An HTTP response: status code and body. -/
structure Response where
  code : Nat
  body : ResponseBody
  deriving DecidableEq, Repr

/-- The function `RespondWithError` of `helper.go`. -/
def RespondWithError (code : Nat) (message : String) : Response :=
  { code := code, body := ResponseBody.error message }

/-- A run of the handler: the final world state, the calls made in order,
and the response written. -/
structure HRun (σ : Type) where
  world : σ
  log : List HEvent
  response : Response

/-- The run `r` preceded by the calls `evs`. -/
def HRun.after {σ : Type} (evs : List HEvent) (r : HRun σ) : HRun σ :=
  { r with log := evs ++ r.log }

/-- The function `EnqueueImageJob` of `image.job.go`: the calls made, the
returned error and the new world state. -/
def EnqueueImageJob {σ : Type} (env : HandlerEnv σ) (w : σ) (client : ClientKind) (job : Job) :
    List HEvent × Option GoError × σ :=
  match env.marshalJob job with
  | Except.error e => ([], some e, w)
  | Except.ok payload =>
    match client with
    | ClientKind.schedulerClient =>
      let opts : EnqueueOptions := { MaxRetry := 3, TimeoutMinutes := 10, Queue := "critical" }
      let r := env.Enqueue w TypeImageProcess payload opts
      ([HEvent.enqueue TypeImageProcess payload opts r.1], r.1, r.2)
    | ClientKind.unsupported t =>
      ([], some (GoError.errorf ("unsupported client type: " ++ t)), w)

/-- Lines 124-130 of `ProcessImage`: each operation becomes the map
`{"type": op.Type, "params": op.Params}`. -/
def operationMaps (ops : List Operation) : List GoMap :=
  ops.map (fun op => [("type", GoAny.string op.Type_), ("params", GoAny.map op.Params)])

/-- Lines 123-153 of `ProcessImage`: the envelope, the enqueue and the
response. -/
def enqueueStage {σ : Type} (env : HandlerEnv σ) (w : σ) (req : ProcessImageRequest)
    (user : User) (image : Image) : HRun σ :=
  let jobs : Job :=
    { ImageID := image.ID, UserID := user.ID, BucketName := req.BucketName,
      ImageKey := req.ImageKey, Operations := operationMaps req.Operations }
  let r := EnqueueImageJob env w ClientKind.schedulerClient jobs
  match r.2.1 with
  | some _ =>
    { world := r.2.2, log := r.1, response := RespondWithError 500 "Failed to queue job" }
  | none =>
    { world := r.2.2, log := r.1
      response :=
        { code := 202
          body := ResponseBody.status
            { ImageID := image.ID, UserID := user.ID, BucketName := req.BucketName,
              ImageKey := req.ImageKey, Status := "processing" } } }

/-- Lines 100-121 of `ProcessImage`: the creation of the Job row with status
"pending". -/
def createImageStage {σ : Type} (env : HandlerEnv σ) (w : σ) (req : ProcessImageRequest)
    (user : User) : HRun σ :=
  let params : CreateImageParams :=
    { UserID := user.ID, BucketName := req.BucketName, ImageKey := req.ImageKey,
      Status := "pending" }
  let r := env.CreateImage w params
  match r.1 with
  | Except.error e =>
    { world := r.2, log := [HEvent.createImage params (some e)]
      response := RespondWithError 500 "Failed to create image record" }
  | Except.ok image =>
    (enqueueStage env r.2 req user image).after [HEvent.createImage params none]

/-- Lines 78-98 of `ProcessImage`: the user is looked up by email and
created when the lookup returns `pgx.ErrNoRows`. -/
def userStage {σ : Type} (env : HandlerEnv σ) (w : σ) (req : ProcessImageRequest) : HRun σ :=
  let r := env.GetUserByEmail w req.Email
  match r.1 with
  | Except.ok user =>
    (createImageStage env r.2 req user).after [HEvent.getUserByEmail req.Email none]
  | Except.error err =>
    if err = ErrNoRows then
      let r2 := env.CreateUser r.2 req.Email
      match r2.1 with
      | Except.error e =>
        { world := r2.2
          log := [HEvent.getUserByEmail req.Email (some err), HEvent.createUser req.Email (some e)]
          response := RespondWithError 500 "Failed to create user" }
      | Except.ok user =>
        (createImageStage env r2.2 req user).after
          [HEvent.getUserByEmail req.Email (some err), HEvent.createUser req.Email none]
    else
      { world := r.2, log := [HEvent.getUserByEmail req.Email (some err)]
        response := RespondWithError 500 "Database error" }

/-- The method `ImageHandler.ProcessImage` of `image.request.go`, run on a
request body in world state `w`. -/
def ProcessImage {σ : Type} (env : HandlerEnv σ) (w : σ) (body : Bytes) : HRun σ :=
  match env.decodeRequest body with
  | Except.error err =>
    { world := w, log := [], response := RespondWithError 400 ("Invalid JSON: " ++ err.message) }
  | Except.ok req =>
    match env.validateStruct req with
    | some err =>
      { world := w, log := []
        response := RespondWithError 400 ("Validation failed: " ++ err.message) }
    | none => userStage env w req


/-- The calls that follow a successful `CreateImage`, with the response:
nothing and 500 (the envelope could not be serialized), one failed enqueue
and 500, or one successful enqueue and 202. -/
def EnqueueTail (tail : List HEvent) (resp : Response) : Prop :=
  (tail = [] ∧ resp.code = 500) ∨
  (∃ t pl o e, tail = [HEvent.enqueue t pl o (some e)] ∧ resp.code = 500) ∨
  (∃ t pl o, tail = [HEvent.enqueue t pl o none] ∧ resp.code = 202)

/-- The calls that follow the resolution of the user, with the response: a
failed `CreateImage` and 500, or a successful one followed by an
`EnqueueTail`; the row is created with status "pending". -/
def ImageTail (tail : List HEvent) (resp : Response) : Prop :=
  (∃ params e, params.Status = "pending" ∧ tail = [HEvent.createImage params (some e)] ∧
    resp.code = 500) ∨
  (∃ params rest, params.Status = "pending" ∧
    tail = HEvent.createImage params none :: rest ∧ EnqueueTail rest resp)

/-- The calls and the response of a run of the handler. -/
def HandlerShape (log : List HEvent) (resp : Response) : Prop :=
  (log = [] ∧ resp.code = 400) ∨
  (∃ email e, e ≠ ErrNoRows ∧ log = [HEvent.getUserByEmail email (some e)] ∧
    resp.code = 500) ∨
  (∃ email e, log = [HEvent.getUserByEmail email (some ErrNoRows),
      HEvent.createUser email (some e)] ∧ resp.code = 500) ∨
  (∃ email tail, log = HEvent.getUserByEmail email none :: tail ∧ ImageTail tail resp) ∨
  (∃ email tail, log = HEvent.getUserByEmail email (some ErrNoRows) ::
      HEvent.createUser email none :: tail ∧ ImageTail tail resp)

/-- A request for one compress operation. -/
def demoRequest : ProcessImageRequest :=
  { Email := "a@x.com", BucketName := "b", ImageKey := "k.jpg"
    Operations := [{ Type_ := "compress", Params := [("quality", GoAny.float64 80)] }] }

/-- The error of a uniqueness conflict on the email of a user. -/
def uniqueViolation : GoError :=
  GoError.external
    "ERROR: duplicate key value violates unique constraint users_email_key (SQLSTATE 23505)"

/-- A Job Store in which another request creates the user between the lookup
and `CreateUser`: the world state counts the lookups; the first lookup
misses, `CreateUser` fails with the uniqueness conflict, and any later
lookup would find user 5. Everything else succeeds. -/
def raceEnv : HandlerEnv Nat :=
  { decodeRequest := fun _ => Except.ok demoRequest
    validateStruct := fun _ => none
    GetUserByEmail := fun n email =>
      (if n = 0 then Except.error ErrNoRows else Except.ok { ID := 5, Email := email }, n + 1)
    CreateUser := fun n _ => (Except.error uniqueViolation, n)
    CreateImage := fun n _ => (Except.ok { ID := 9 }, n)
    marshalJob := fun _ => Except.ok [1]
    Enqueue := fun n _ _ _ => (none, n) }

/-- A Job Store that knows the user and a broker that is down: the enqueue
fails. -/
def brokerDownEnv : HandlerEnv Nat :=
  { raceEnv with
    GetUserByEmail := fun n email => (Except.ok { ID := 5, Email := email }, n + 1)
    Enqueue := fun n _ _ _ => (some (GoError.external "dial tcp: connection refused"), n) }


/-- An environment in which the download fails and everything else,
the status writes included, succeeds. -/
def downloadErrorEnv (p : Job) : Env Unit Nat :=
  { okEnv p with
    Download := fun w _ _ => (Except.error (GoError.external "no such key"), w) }


/-! ## Lemmas on the stages -/

theorem toInt32_of_fits (x : Int) (h1 : -(2 ^ 31) ≤ x) (h2 : x < 2 ^ 31) : toInt32 x = x := by
  unfold toInt32
  rw [Int.emod_eq_of_lt (by omega) (by omega)]
  omega

theorem log_after {σ : Type} (evs : List Event) (r : Run σ) :
    (r.after evs).log = evs ++ r.log := rfl

theorem applyOps_skip {σ Img : Type} (env : Env σ Img) (img : Img) (op : GoMap)
    (rest : List GoMap) (h : opType op ≠ "watermark") :
    applyOps env img (op :: rest) = applyOps env img rest := by
  simp [applyOps, h]

theorem applyOps_error {σ Img : Type} (env : Env σ Img) (img : Img) (op : GoMap)
    (rest : List GoMap) (e : GoError) (h : opType op = "watermark")
    (he : env.ApplyWatermark img (parseWatermarkParams env.rnd (opParams op)) = Except.error e) :
    applyOps env img (op :: rest) =
      ([Event.applyWatermark (parseWatermarkParams env.rnd (opParams op)) (some e)],
        Except.error e) := by
  simp [applyOps, h, he]

theorem applyOps_ok {σ Img : Type} (env : Env σ Img) (img img2 : Img) (op : GoMap)
    (rest : List GoMap) (h : opType op = "watermark")
    (he : env.ApplyWatermark img (parseWatermarkParams env.rnd (opParams op)) = Except.ok img2) :
    applyOps env img (op :: rest) =
      (Event.applyWatermark (parseWatermarkParams env.rnd (opParams op)) none ::
        (applyOps env img2 rest).1, (applyOps env img2 rest).2) := by
  simp [applyOps, h, he]

theorem applyOps_events {σ Img : Type} (env : Env σ Img) (ops : List GoMap) :
    ∀ img : Img, (∀ ev ∈ (applyOps env img ops).1, ∃ wp err, ev = Event.applyWatermark wp err) ∧
      (∀ img2, (applyOps env img ops).2 = Except.ok img2 →
        ∀ ev ∈ (applyOps env img ops).1, ev.failure = none) ∧
      (∀ e, (applyOps env img ops).2 = Except.error e →
        ∀ ev ∈ (applyOps env img ops).1, ∀ e2, ev.failure = some e2 → e2 = e) := by
  induction ops with
  | nil => intro img; simp [applyOps]
  | cons op rest ih =>
    intro img
    by_cases h : opType op = "watermark"
    · cases he : env.ApplyWatermark img (parseWatermarkParams env.rnd (opParams op)) with
      | error e =>
        rw [applyOps_error env img op rest e h he]
        simp [Event.isStatus, Event.failure]
      | ok img2 =>
        rw [applyOps_ok env img img2 op rest h he]
        obtain ⟨h1, h2, h3⟩ := ih img2
        refine ⟨?_, ?_, ?_⟩
        · intro ev hev
          simp only [List.mem_cons] at hev
          rcases hev with rfl | hev
          · exact ⟨_, _, rfl⟩
          · exact h1 ev hev
        · intro img3 hr ev hev
          simp only [List.mem_cons] at hev
          rcases hev with rfl | hev
          · rfl
          · exact h2 img3 hr ev hev
        · intro e hr ev hev e2 hf
          simp only [List.mem_cons] at hev
          rcases hev with rfl | hev
          · simp [Event.failure] at hf
          · exact h3 e hr ev hev e2 hf
    · rw [applyOps_skip env img op rest h]
      exact ih img

theorem applyOps_not_status {σ Img : Type} (env : Env σ Img) (ops : List GoMap) (img : Img) :
    ∀ ev ∈ (applyOps env img ops).1, ev.isStatus = false := by
  intro ev hev
  obtain ⟨wp, err, rfl⟩ := (applyOps_events env ops img).1 ev hev
  rfl

theorem uploadStage_cases {σ Img : Type} (env : Env σ Img) (w : σ) (p : Job)
    (cp : CompressParams) (data : Bytes) :
    (∃ e w2, uploadStage env w p cp data =
      (markFailed env w2 p (GoError.wrapf "failed to upload processed image" e)).after
        [Event.upload p.BucketName (outputKey p.ImageID cp.Format) data (some e)]) ∨
    (∃ w2, uploadStage env w p cp data =
      (completeStage env w2 p).after
        [Event.upload p.BucketName (outputKey p.ImageID cp.Format) data none]) := by
  unfold uploadStage
  cases h : (env.Upload w p.BucketName (outputKey p.ImageID cp.Format) data).1 with
  | some e => left; exact ⟨e, _, by simp only [h]; rfl⟩
  | none => right; exact ⟨_, by simp only [h]; rfl⟩

theorem encodeStage_cases {σ Img : Type} (env : Env σ Img) (w : σ) (p : Job) (img : Img) :
    (compressParamsOf p.Operations = none ∧
      encodeStage env w p img = { world := w, log := [], outcome := Outcome.panic }) ∨
    (∃ cp e, compressParamsOf p.Operations = some cp ∧ encodeStage env w p img =
      (markFailed env w p (GoError.wrapf "failed to encode image" e)).after
        [Event.compress cp (some e)]) ∨
    (∃ cp data, compressParamsOf p.Operations = some cp ∧ encodeStage env w p img =
      (uploadStage env w p cp data).after [Event.compress cp none]) := by
  unfold encodeStage
  cases h : compressParamsOf p.Operations with
  | none => left; exact ⟨rfl, rfl⟩
  | some cp =>
    right
    cases h2 : env.Compress img cp with
    | error e => left; exact ⟨cp, e, rfl, by simp only [h2]⟩
    | ok data => right; exact ⟨cp, data, rfl, by simp only [h2]⟩

theorem opsStage_cases {σ Img : Type} (env : Env σ Img) (w : σ) (p : Job) (img : Img) :
    (∃ e, (applyOps env img p.Operations).2 = Except.error e ∧ opsStage env w p img =
      (markFailed env w p (GoError.wrapf "failed to apply watermark" e)).after
        (applyOps env img p.Operations).1) ∨
    (∃ img2, (applyOps env img p.Operations).2 = Except.ok img2 ∧ opsStage env w p img =
      (encodeStage env w p img2).after (applyOps env img p.Operations).1) := by
  unfold opsStage
  cases h : (applyOps env img p.Operations).2 with
  | error e => left; exact ⟨e, rfl, by simp only [h]⟩
  | ok img2 => right; exact ⟨img2, rfl, by simp only [h]⟩

theorem decodeStage_cases {σ Img : Type} (env : Env σ Img) (w : σ) (p : Job) (d : Bytes) :
    (∃ e, decodeStage env w p d =
      (markFailed env w p (GoError.wrapf "failed to decode image" e)).after
        [Event.decode (some e)]) ∨
    (∃ img, decodeStage env w p d = (opsStage env w p img).after [Event.decode none]) := by
  unfold decodeStage
  cases h : env.Decode d with
  | error e => left; exact ⟨e, rfl⟩
  | ok img => right; exact ⟨img, rfl⟩

theorem downloadStage_cases {σ Img : Type} (env : Env σ Img) (w : σ) (p : Job) :
    (∃ e w2, downloadStage env w p =
      (markFailed env w2 p (GoError.wrapf "failed to download image" e)).after
        [Event.download p.BucketName p.ImageKey (some e)]) ∨
    (∃ d w2, downloadStage env w p =
      (decodeStage env w2 p d).after [Event.download p.BucketName p.ImageKey none]) := by
  unfold downloadStage
  cases h : (env.Download w p.BucketName p.ImageKey).1 with
  | error e => left; exact ⟨e, _, by simp only [h]; rfl⟩
  | ok d => right; exact ⟨d, _, by simp only [h]; rfl⟩

theorem serviceStage_cases {σ Img : Type} (env : Env σ Img) (w : σ) (p : Job) :
    (∃ e w2, serviceStage env w p =
      (markFailed env w2 p (GoError.wrapf "failed to create S3 service" e)).after
        [Event.newS3Service p.BucketName (some e)]) ∨
    (∃ w2, serviceStage env w p =
      (downloadStage env w2 p).after [Event.newS3Service p.BucketName none]) := by
  unfold serviceStage
  cases h : (env.NewS3Service w p.BucketName).1 with
  | some e => left; exact ⟨e, _, by simp only [h]; rfl⟩
  | none => right; exact ⟨_, by simp only [h]; rfl⟩

theorem processingStage_cases {σ Img : Type} (env : Env σ Img) (w : σ) (p : Job) :
    (∃ e w2, processingStage env w p =
      { world := w2
        log := [Event.updateImageStatus (toInt32 p.ImageID) "processing" (some e)]
        outcome := Outcome.error
          (GoError.wrapf "failed to update image status to processing" e) }) ∨
    (∃ w2, processingStage env w p =
      (serviceStage env w2 p).after
        [Event.updateImageStatus (toInt32 p.ImageID) "processing" none]) := by
  unfold processingStage
  cases h : (env.UpdateImageStatus w (toInt32 p.ImageID) "processing").1 with
  | some e => left; exact ⟨e, _, by simp only [h]; rfl⟩
  | none => right; exact ⟨_, by simp only [h]; rfl⟩

theorem eventOK_markFailed {σ Img : Type} (env : Env σ Img) (w : σ) (p : Job) (e : GoError) :
    ∀ ev ∈ (markFailed env w p e).log, EventOK p ev := by
  simp [markFailed, EventOK]

theorem eventOK_completeStage {σ Img : Type} (env : Env σ Img) (w : σ) (p : Job) :
    ∀ ev ∈ (completeStage env w p).log, EventOK p ev := by
  simp [completeStage, EventOK]

theorem eventOK_after {σ : Type} (p : Job) (ev0 : Event) (r : Run σ) (h0 : EventOK p ev0)
    (h : ∀ ev ∈ r.log, EventOK p ev) : ∀ ev ∈ (r.after [ev0]).log, EventOK p ev := by
  intro ev hev
  simp only [log_after, List.mem_append, List.mem_singleton] at hev
  rcases hev with rfl | hev
  · exact h0
  · exact h ev hev

theorem eventOK_uploadStage {σ Img : Type} (env : Env σ Img) (w : σ) (p : Job)
    (cp : CompressParams) (data : Bytes) (hcp : compressParamsOf p.Operations = some cp) :
    ∀ ev ∈ (uploadStage env w p cp data).log, EventOK p ev := by
  rcases uploadStage_cases env w p cp data with ⟨e, w2, h⟩ | ⟨w2, h⟩ <;> rw [h]
  · exact eventOK_after p _ _ ⟨rfl, cp, hcp, rfl⟩ (eventOK_markFailed env _ p _)
  · exact eventOK_after p _ _ ⟨rfl, cp, hcp, rfl⟩ (eventOK_completeStage env _ p)

theorem eventOK_encodeStage {σ Img : Type} (env : Env σ Img) (w : σ) (p : Job) (img : Img) :
    ∀ ev ∈ (encodeStage env w p img).log, EventOK p ev := by
  rcases encodeStage_cases env w p img with ⟨_, h⟩ | ⟨cp, e, hcp, h⟩ | ⟨cp, d, hcp, h⟩ <;> rw [h]
  · simp
  · exact eventOK_after p _ _ hcp (eventOK_markFailed env _ p _)
  · exact eventOK_after p _ _ hcp (eventOK_uploadStage env _ p cp d hcp)

theorem eventOK_opsStage {σ Img : Type} (env : Env σ Img) (w : σ) (p : Job) (img : Img) :
    ∀ ev ∈ (opsStage env w p img).log, EventOK p ev := by
  have hw : ∀ ev ∈ (applyOps env img p.Operations).1, EventOK p ev := by
    intro ev hev
    obtain ⟨wp, err, rfl⟩ := (applyOps_events env p.Operations img).1 ev hev
    trivial
  rcases opsStage_cases env w p img with ⟨e, _, h⟩ | ⟨img2, _, h⟩ <;> rw [h] <;>
    intro ev hev <;> simp only [log_after, List.mem_append] at hev <;>
    rcases hev with hev | hev
  · exact hw ev hev
  · exact eventOK_markFailed env _ p _ ev hev
  · exact hw ev hev
  · exact eventOK_encodeStage env _ p _ ev hev

theorem eventOK_decodeStage {σ Img : Type} (env : Env σ Img) (w : σ) (p : Job) (d : Bytes) :
    ∀ ev ∈ (decodeStage env w p d).log, EventOK p ev := by
  rcases decodeStage_cases env w p d with ⟨e, h⟩ | ⟨img, h⟩ <;> rw [h]
  · exact eventOK_after p _ _ trivial (eventOK_markFailed env _ p _)
  · exact eventOK_after p _ _ trivial (eventOK_opsStage env _ p _)

theorem eventOK_downloadStage {σ Img : Type} (env : Env σ Img) (w : σ) (p : Job) :
    ∀ ev ∈ (downloadStage env w p).log, EventOK p ev := by
  rcases downloadStage_cases env w p with ⟨e, w2, h⟩ | ⟨d, w2, h⟩ <;> rw [h]
  · exact eventOK_after p _ _ ⟨rfl, rfl⟩ (eventOK_markFailed env _ p _)
  · exact eventOK_after p _ _ ⟨rfl, rfl⟩ (eventOK_decodeStage env _ p _)

theorem eventOK_serviceStage {σ Img : Type} (env : Env σ Img) (w : σ) (p : Job) :
    ∀ ev ∈ (serviceStage env w p).log, EventOK p ev := by
  rcases serviceStage_cases env w p with ⟨e, w2, h⟩ | ⟨w2, h⟩ <;> rw [h]
  · exact eventOK_after p _ _ rfl (eventOK_markFailed env _ p _)
  · exact eventOK_after p _ _ rfl (eventOK_downloadStage env _ p)

theorem eventOK_processingStage {σ Img : Type} (env : Env σ Img) (w : σ) (p : Job) :
    ∀ ev ∈ (processingStage env w p).log, EventOK p ev := by
  rcases processingStage_cases env w p with ⟨e, w2, h⟩ | ⟨w2, h⟩ <;> rw [h]
  · intro ev hev
    simp only [List.mem_singleton] at hev
    subst hev
    rfl
  · exact eventOK_after p _ _ rfl (eventOK_serviceStage env _ p)

theorem tailShape_append (evs log : List Event) (h : ∀ ev ∈ evs, ev.isStatus = false)
    (ht : TailShape log) : TailShape (evs ++ log) := by
  obtain ⟨calls, hc, hl⟩ := ht
  refine ⟨evs ++ calls, ?_, ?_⟩
  · intro ev hev
    rcases List.mem_append.mp hev with hev | hev
    · exact h ev hev
    · exact hc ev hev
  · rcases hl with rfl | ⟨id, err, rfl⟩ | ⟨id, err, c, b, k, d, rfl, rfl⟩
    · exact Or.inl rfl
    · exact Or.inr (Or.inl ⟨id, err, by simp⟩)
    · exact Or.inr (Or.inr ⟨id, err, evs ++ c, b, k, d, by simp, by simp⟩)

theorem tailShape_markFailed {σ Img : Type} (env : Env σ Img) (w : σ) (p : Job) (e : GoError) :
    TailShape (markFailed env w p e).log :=
  ⟨[], by simp, Or.inr (Or.inl ⟨_, _, rfl⟩)⟩

theorem tailShape_after {σ : Type} (ev0 : Event) (r : Run σ) (h0 : ev0.isStatus = false)
    (h : TailShape r.log) : TailShape (r.after [ev0]).log := by
  rw [log_after]
  exact tailShape_append [ev0] r.log (by simpa using h0) h

theorem tailShape_uploadStage {σ Img : Type} (env : Env σ Img) (w : σ) (p : Job)
    (cp : CompressParams) (data : Bytes) : TailShape (uploadStage env w p cp data).log := by
  rcases uploadStage_cases env w p cp data with ⟨e, w2, h⟩ | ⟨w2, h⟩ <;> rw [h]
  · exact tailShape_after _ _ rfl (tailShape_markFailed env _ p _)
  · exact ⟨[Event.upload p.BucketName (outputKey p.ImageID cp.Format) data none],
      by simp [Event.isStatus],
      Or.inr (Or.inr ⟨_, _, [], _, _, _, rfl, rfl⟩)⟩

theorem tailShape_encodeStage {σ Img : Type} (env : Env σ Img) (w : σ) (p : Job) (img : Img) :
    TailShape (encodeStage env w p img).log := by
  rcases encodeStage_cases env w p img with ⟨_, h⟩ | ⟨cp, e, hcp, h⟩ | ⟨cp, d, hcp, h⟩ <;> rw [h]
  · exact ⟨[], by simp, Or.inl rfl⟩
  · exact tailShape_after _ _ rfl (tailShape_markFailed env _ p _)
  · exact tailShape_after _ _ rfl (tailShape_uploadStage env _ p cp d)

theorem tailShape_opsStage {σ Img : Type} (env : Env σ Img) (w : σ) (p : Job) (img : Img) :
    TailShape (opsStage env w p img).log := by
  rcases opsStage_cases env w p img with ⟨e, _, h⟩ | ⟨img2, _, h⟩ <;> rw [h, log_after]
  · exact tailShape_append _ _ (applyOps_not_status env _ img) (tailShape_markFailed env _ p _)
  · exact tailShape_append _ _ (applyOps_not_status env _ img) (tailShape_encodeStage env _ p _)

theorem tailShape_decodeStage {σ Img : Type} (env : Env σ Img) (w : σ) (p : Job) (d : Bytes) :
    TailShape (decodeStage env w p d).log := by
  rcases decodeStage_cases env w p d with ⟨e, h⟩ | ⟨img, h⟩ <;> rw [h]
  · exact tailShape_after _ _ rfl (tailShape_markFailed env _ p _)
  · exact tailShape_after _ _ rfl (tailShape_opsStage env _ p _)

theorem tailShape_downloadStage {σ Img : Type} (env : Env σ Img) (w : σ) (p : Job) :
    TailShape (downloadStage env w p).log := by
  rcases downloadStage_cases env w p with ⟨e, w2, h⟩ | ⟨d, w2, h⟩ <;> rw [h]
  · exact tailShape_after _ _ rfl (tailShape_markFailed env _ p _)
  · exact tailShape_after _ _ rfl (tailShape_decodeStage env _ p _)

theorem tailShape_serviceStage {σ Img : Type} (env : Env σ Img) (w : σ) (p : Job) :
    TailShape (serviceStage env w p).log := by
  rcases serviceStage_cases env w p with ⟨e, w2, h⟩ | ⟨w2, h⟩ <;> rw [h]
  · exact tailShape_after _ _ rfl (tailShape_markFailed env _ p _)
  · exact tailShape_after _ _ rfl (tailShape_downloadStage env _ p)

theorem failureHandled_markFailed {σ Img : Type} (env : Env σ Img) (w : σ) (p : Job)
    (text : String) (e : GoError) (evs : List Event)
    (h : ∀ ev ∈ evs, ∀ e2, ev.failure = some e2 → e2 = e) :
    FailureHandled p ((markFailed env w p (GoError.wrapf text e)).after evs) := by
  intro ev hev e2 hf
  simp only [log_after, markFailed, List.mem_append, List.mem_singleton] at hev
  rcases hev with hev | rfl
  · obtain rfl := h ev hev e2 hf
    exact ⟨⟨evs, _, rfl⟩, text, rfl⟩
  · simp [Event.failure] at hf

theorem failureHandled_after {σ : Type} (p : Job) (evs : List Event) (r : Run σ)
    (h0 : ∀ ev ∈ evs, ev.failure = none) (h : FailureHandled p r) :
    FailureHandled p (r.after evs) := by
  intro ev hev e hf
  simp only [log_after, List.mem_append] at hev
  rcases hev with hev | hev
  · rw [h0 ev hev] at hf
    cases hf
  · obtain ⟨⟨pre, err, hl⟩, text, ho⟩ := h ev hev e hf
    refine ⟨⟨evs ++ pre, err, ?_⟩, text, ho⟩
    rw [log_after, hl, List.append_assoc]

theorem failureHandled_completeStage {σ Img : Type} (env : Env σ Img) (w : σ) (p : Job) :
    FailureHandled p (completeStage env w p) := by
  intro ev hev e hf
  simp only [completeStage, List.mem_singleton] at hev
  subst hev
  simp [Event.failure] at hf

theorem failureHandled_uploadStage {σ Img : Type} (env : Env σ Img) (w : σ) (p : Job)
    (cp : CompressParams) (data : Bytes) : FailureHandled p (uploadStage env w p cp data) := by
  rcases uploadStage_cases env w p cp data with ⟨e, w2, h⟩ | ⟨w2, h⟩ <;> rw [h]
  · exact failureHandled_markFailed env _ p _ e _ (by simp [Event.failure])
  · exact failureHandled_after p _ _ (by simp [Event.failure])
      (failureHandled_completeStage env _ p)

theorem failureHandled_encodeStage {σ Img : Type} (env : Env σ Img) (w : σ) (p : Job)
    (img : Img) : FailureHandled p (encodeStage env w p img) := by
  rcases encodeStage_cases env w p img with ⟨_, h⟩ | ⟨cp, e, hcp, h⟩ | ⟨cp, d, hcp, h⟩ <;> rw [h]
  · intro ev hev
    simp at hev
  · exact failureHandled_markFailed env _ p _ e _ (by simp [Event.failure])
  · exact failureHandled_after p _ _ (by simp [Event.failure])
      (failureHandled_uploadStage env _ p cp d)

theorem failureHandled_opsStage {σ Img : Type} (env : Env σ Img) (w : σ) (p : Job)
    (img : Img) : FailureHandled p (opsStage env w p img) := by
  rcases opsStage_cases env w p img with ⟨e, he, h⟩ | ⟨img2, he, h⟩ <;> rw [h]
  · exact failureHandled_markFailed env _ p _ e _ ((applyOps_events env _ img).2.2 e he)
  · exact failureHandled_after p _ _ ((applyOps_events env _ img).2.1 img2 he)
      (failureHandled_encodeStage env _ p _)

theorem failureHandled_decodeStage {σ Img : Type} (env : Env σ Img) (w : σ) (p : Job)
    (d : Bytes) : FailureHandled p (decodeStage env w p d) := by
  rcases decodeStage_cases env w p d with ⟨e, h⟩ | ⟨img, h⟩ <;> rw [h]
  · exact failureHandled_markFailed env _ p _ e _ (by simp [Event.failure])
  · exact failureHandled_after p _ _ (by simp [Event.failure])
      (failureHandled_opsStage env _ p _)

theorem failureHandled_downloadStage {σ Img : Type} (env : Env σ Img) (w : σ) (p : Job) :
    FailureHandled p (downloadStage env w p) := by
  rcases downloadStage_cases env w p with ⟨e, w2, h⟩ | ⟨d, w2, h⟩ <;> rw [h]
  · exact failureHandled_markFailed env _ p _ e _ (by simp [Event.failure])
  · exact failureHandled_after p _ _ (by simp [Event.failure])
      (failureHandled_decodeStage env _ p _)

theorem failureHandled_serviceStage {σ Img : Type} (env : Env σ Img) (w : σ) (p : Job) :
    FailureHandled p (serviceStage env w p) := by
  rcases serviceStage_cases env w p with ⟨e, w2, h⟩ | ⟨w2, h⟩ <;> rw [h]
  · exact failureHandled_markFailed env _ p _ e _ (by simp [Event.failure])
  · exact failureHandled_after p _ _ (by simp [Event.failure])
      (failureHandled_downloadStage env _ p)

theorem failureHandled_processingStage {σ Img : Type} (env : Env σ Img) (w : σ) (p : Job) :
    FailureHandled p (processingStage env w p) := by
  rcases processingStage_cases env w p with ⟨e, w2, h⟩ | ⟨w2, h⟩ <;> rw [h]
  · intro ev hev e2 hf
    simp only [List.mem_singleton] at hev
    subst hev
    simp [Event.failure] at hf
  · exact failureHandled_after p _ _ (by simp [Event.failure])
      (failureHandled_serviceStage env _ p)

/-- The run on a payload that deserializes to a valid envelope is the
pipeline started by the write of "processing". -/
theorem HandleImagePP_valid {σ Img : Type} (env : Env σ Img) (w : σ) (payload : Bytes)
    (p : Job) (hp : env.unmarshal payload = Except.ok p) (hv : validJob p) :
    HandleImagePP env w payload = processingStage env w p := by
  unfold validJob at hv
  simp [HandleImagePP, hp, hv]

/-- The run on a payload that does not deserialize, or deserializes to an
envelope with a missing field, makes no call. -/
theorem HandleImagePP_invalid {σ Img : Type} (env : Env σ Img) (w : σ) (payload : Bytes)
    (p : Job) (hp : env.unmarshal payload = Except.ok p) (hv : ¬ validJob p) :
    HandleImagePP env w payload =
      { world := w, log := []
        outcome := Outcome.error (GoError.errorf "invalid job payload: missing required fields") } := by
  unfold validJob at hv
  simp only [not_not] at hv
  simp [HandleImagePP, hp, hv]

/-- The shape of the log of any run. -/
theorem HandleImagePP_shape {σ Img : Type} (env : Env σ Img) (w : σ) (payload : Bytes) :
    (HandleImagePP env w payload).log = [] ∨
    (∃ id err, (HandleImagePP env w payload).log =
      [Event.updateImageStatus id "processing" err]) ∨
    (∃ id tail, (HandleImagePP env w payload).log =
      Event.updateImageStatus id "processing" none :: tail ∧ TailShape tail) := by
  cases hp : env.unmarshal payload with
  | error e => left; simp [HandleImagePP, hp]
  | ok p =>
    by_cases hv : validJob p
    · rw [HandleImagePP_valid env w payload p hp hv]
      rcases processingStage_cases env w p with ⟨e, w2, h⟩ | ⟨w2, h⟩ <;> rw [h]
      · exact Or.inr (Or.inl ⟨_, _, rfl⟩)
      · exact Or.inr (Or.inr ⟨_, _, rfl, tailShape_serviceStage env _ p⟩)
    · rw [HandleImagePP_invalid env w payload p hp hv]
      exact Or.inl rfl

theorem statusWrites_calls (calls : List Event) (h : ∀ ev ∈ calls, ev.isStatus = false) :
    ∀ rest, statusWrites (calls ++ rest) = statusWrites rest := by
  induction calls with
  | nil => intro rest; rfl
  | cons c cs ih =>
    intro rest
    have hc : c.isStatus = false := h c (List.mem_cons_self _ _)
    have hcs : ∀ ev ∈ cs, ev.isStatus = false := fun ev hev => h ev (List.mem_cons_of_mem _ hev)
    cases c <;> simp [Event.isStatus] at hc <;> simp [statusWrites, ih hcs]

theorem committedWrites_calls (calls : List Event) (h : ∀ ev ∈ calls, ev.isStatus = false) :
    ∀ rest, committedWrites (calls ++ rest) = committedWrites rest := by
  induction calls with
  | nil => intro rest; rfl
  | cons c cs ih =>
    intro rest
    have hc : c.isStatus = false := h c (List.mem_cons_self _ _)
    have hcs : ∀ ev ∈ cs, ev.isStatus = false := fun ev hev => h ev (List.mem_cons_of_mem _ hev)
    cases c <;> simp [Event.isStatus] at hc <;> simp [committedWrites, ih hcs]

theorem committedWrites_single (id : Int) (s : String) (err : Option GoError) :
    committedWrites [Event.updateImageStatus id s err] = [] ∨
    committedWrites [Event.updateImageStatus id s err] = [s] := by
  cases err with
  | none => exact Or.inr rfl
  | some e => exact Or.inl rfl

/-- In a list of calls that are not status writes followed by one last
element, a status write can only be that last element. -/
theorem split_calls_last (calls : List Event) (h : ∀ ev ∈ calls, ev.isStatus = false)
    (t x : Event) (hx : x.isStatus = true) :
    ∀ pre post, calls ++ [t] = pre ++ x :: post → pre = calls ∧ x = t ∧ post = [] := by
  induction calls with
  | nil =>
    intro pre post heq
    cases pre with
    | nil =>
      simp only [List.nil_append, List.cons.injEq] at heq
      exact ⟨rfl, heq.1.symm, heq.2.symm⟩
    | cons a pre2 =>
      simp only [List.nil_append, List.cons_append, List.cons.injEq] at heq
      have := heq.2
      simp at this
  | cons c cs ih =>
    intro pre post heq
    have hc : c.isStatus = false := h c (List.mem_cons_self _ _)
    have hcs : ∀ ev ∈ cs, ev.isStatus = false := fun ev hev => h ev (List.mem_cons_of_mem _ hev)
    cases pre with
    | nil =>
      simp only [List.nil_append, List.cons_append, List.cons.injEq] at heq
      rw [← heq.1, hc] at hx
      cases hx
    | cons a pre2 =>
      simp only [List.cons_append, List.cons.injEq] at heq
      obtain ⟨h1, h2, h3⟩ := ih hcs pre2 post heq.2
      exact ⟨by rw [← heq.1, h1], h2, h3⟩

theorem split_calls_none (calls : List Event) (h : ∀ ev ∈ calls, ev.isStatus = false)
    (x : Event) (hx : x.isStatus = true) (pre post : List Event) :
    calls ≠ pre ++ x :: post := by
  intro heq
  have hmem : x ∈ calls := by rw [heq]; simp
  rw [h x hmem] at hx
  cases hx

theorem compressParamsOf_first (pre post : List GoMap) (op : GoMap) (m : GoMap)
    (hpre : ∀ o ∈ pre, opType o ≠ "compress") (hop : opType op = "compress")
    (hm : GoAny.index op "params" = GoAny.map m) :
    compressParamsOf (pre ++ op :: post) = some (parseCompressParams m) := by
  induction pre with
  | nil => simp [compressParamsOf, hop, hm, GoAny.asMap]
  | cons o rest ih =>
    have ho : opType o ≠ "compress" := hpre o (List.mem_cons_self _ _)
    have hr : ∀ o ∈ rest, opType o ≠ "compress" :=
      fun o2 h2 => hpre o2 (List.mem_cons_of_mem _ h2)
    simp only [List.cons_append, compressParamsOf, ho, if_false]
    exact ih hr

theorem compressParamsOf_none_compress (ops : List GoMap)
    (h : ∀ o ∈ ops, opType o ≠ "compress") :
    compressParamsOf ops =
      some { Quality := 85, Format := "jpeg", MaxWidth := 0, MaxHeight := 0 } := by
  induction ops with
  | nil => rfl
  | cons o rest ih =>
    have ho : opType o ≠ "compress" := h o (List.mem_cons_self _ _)
    simp only [compressParamsOf, ho, if_false]
    exact ih (fun o2 h2 => h o2 (List.mem_cons_of_mem _ h2))

/-- Every call of a run on a payload that deserializes to `p` is made with
the values `EventOK` lists. -/
theorem HandleImagePP_eventOK {σ Img : Type} (env : Env σ Img) (w : σ) (payload : Bytes)
    (p : Job) (hp : env.unmarshal payload = Except.ok p) :
    ∀ ev ∈ (HandleImagePP env w payload).log, EventOK p ev := by
  by_cases hv : validJob p
  · rw [HandleImagePP_valid env w payload p hp hv]
    exact eventOK_processingStage env w p
  · rw [HandleImagePP_invalid env w payload p hp hv]
    simp

/-- Every run on a payload that deserializes to `p` handles failures. -/
theorem HandleImagePP_failureHandled {σ Img : Type} (env : Env σ Img) (w : σ)
    (payload : Bytes) (p : Job) (hp : env.unmarshal payload = Except.ok p) :
    FailureHandled p (HandleImagePP env w payload) := by
  by_cases hv : validJob p
  · rw [HandleImagePP_valid env w payload p hp hv]
    exact failureHandled_processingStage env w p
  · rw [HandleImagePP_invalid env w payload p hp hv]
    intro ev hev
    simp at hev

/-! ## Lemmas on `parseColor` -/

theorem hexDigit_ascii (c : Char) (v : Nat) (h : hexDigit c = some v) :
    c.toNat < 128 ∧ c.toNat ≠ 10 ∧ c.toNat ≠ 35 ∧ isSpace c = false := by
  unfold hexDigit at h
  simp only at h
  have hr : (48 ≤ c.toNat ∧ c.toNat ≤ 57) ∨ (97 ≤ c.toNat ∧ c.toNat ≤ 102) ∨
      (65 ≤ c.toNat ∧ c.toNat ≤ 70) := by
    split_ifs at h with h1 h2 h3
    · exact Or.inl h1
    · exact Or.inr (Or.inl h2)
    · exact Or.inr (Or.inr h3)
  refine ⟨by omega, by omega, by omega, ?_⟩
  unfold isSpace
  simp only [Bool.or_eq_false_iff, Bool.and_eq_false_iff, decide_eq_false_iff_not,
    beq_eq_false_iff_ne, ne_eq]
  omega

theorem char_ne_of_toNat_ne (c d : Char) (h : c.toNat ≠ d.toNat) : c ≠ d := by
  intro heq
  exact h (by rw [heq])

theorem utf8Size_of_ascii (c : Char) (h : c.toNat < 128) : c.utf8Size = 1 := by
  have h1 : c.val.toNat < 128 := h
  have h2 : c.val ≤ 127 := by
    show c.val.toNat ≤ (127 : UInt32).toNat
    have e : (127 : UInt32).toNat = 127 := rfl
    omega
  unfold Char.utf8Size
  exact if_pos h2

theorem scanHex2_pair (c d : Char) (rest : List Char) (hi lo : Nat)
    (hc : hexDigit c = some hi) (hd : hexDigit d = some lo) :
    scanHex2 (c :: d :: rest) = some (16 * hi + lo, rest) := by
  obtain ⟨_, hnl, _, hsp⟩ := hexDigit_ascii c hi hc
  have hne : c ≠ '\n' := char_ne_of_toNat_ne c '\n' hnl
  simp [scanHex2, skipSpace, hne, hsp, hc, hd]

/-- A colour string whose byte length, after one optional leading '#', is
not 6 gives white with alpha 255. -/
theorem parseColor_wrong_length (hex : String) (h : goLen (stripHash hex.data) ≠ 6) :
    parseColor hex = { R := 255, G := 255, B := 255, A := 255 } := by
  unfold parseColor
  split_ifs
  · rfl
  · simp only [h, ne_eq, not_false_eq_true, if_true]

/-- A colour string of six hexadecimal digits, with or without a leading
'#', gives the byte values of the three digit pairs with alpha 255. -/
theorem parseColor_six_hex (c1 c2 c3 c4 c5 c6 : Char) (v1 v2 v3 v4 v5 v6 : Nat)
    (h1 : hexDigit c1 = some v1) (h2 : hexDigit c2 = some v2) (h3 : hexDigit c3 = some v3)
    (h4 : hexDigit c4 = some v4) (h5 : hexDigit c5 = some v5) (h6 : hexDigit c6 = some v6) :
    parseColor (String.mk [c1, c2, c3, c4, c5, c6]) =
      { R := 16 * v1 + v2, G := 16 * v3 + v4, B := 16 * v5 + v6, A := 255 } ∧
    parseColor (String.mk ('#' :: [c1, c2, c3, c4, c5, c6])) =
      { R := 16 * v1 + v2, G := 16 * v3 + v4, B := 16 * v5 + v6, A := 255 } := by
  have a1 := hexDigit_ascii c1 v1 h1
  have s1 := utf8Size_of_ascii c1 a1.1
  have s2 := utf8Size_of_ascii c2 (hexDigit_ascii c2 v2 h2).1
  have s3 := utf8Size_of_ascii c3 (hexDigit_ascii c3 v3 h3).1
  have s4 := utf8Size_of_ascii c4 (hexDigit_ascii c4 v4 h4).1
  have s5 := utf8Size_of_ascii c5 (hexDigit_ascii c5 v5 h5).1
  have s6 := utf8Size_of_ascii c6 (hexDigit_ascii c6 v6 h6).1
  have hlen : goLen [c1, c2, c3, c4, c5, c6] = 6 := by
    simp [goLen, s1, s2, s3, s4, s5, s6]
  have hne : c1 ≠ '#' := char_ne_of_toNat_ne c1 '#' a1.2.2.1
  have hscan : sscanfHex3 [c1, c2, c3, c4, c5, c6] =
      (16 * v1 + v2, 16 * v3 + v4, 16 * v5 + v6) := by
    simp [sscanfHex3, scanHex2_pair c1 c2 _ v1 v2 h1 h2, scanHex2_pair c3 c4 _ v3 v4 h3 h4,
      scanHex2_pair c5 c6 _ v5 v6 h5 h6]
  have hs1 : stripHash [c1, c2, c3, c4, c5, c6] = [c1, c2, c3, c4, c5, c6] := by
    simp [stripHash, hne]
  have hs2 : stripHash ('#' :: [c1, c2, c3, c4, c5, c6]) = [c1, c2, c3, c4, c5, c6] := by
    simp [stripHash]
  have hl1 : goLen [c1, c2, c3, c4, c5, c6] ≠ 0 := by rw [hlen]; decide
  have hl2 : goLen ('#' :: [c1, c2, c3, c4, c5, c6]) ≠ 0 := by
    have : goLen ('#' :: [c1, c2, c3, c4, c5, c6]) = 7 := by
      simp [goLen, s1, s2, s3, s4, s5, s6, utf8Size_of_ascii '#' (by decide)]
    rw [this]; decide
  refine ⟨?_, ?_⟩
  · unfold parseColor
    simp only [hs1, hlen, hscan, hl1, if_false, ne_eq, not_true_eq_false]
    rfl
  · unfold parseColor
    simp only [hs2, hlen, hscan, hl2, if_false, ne_eq, not_true_eq_false]

/-! ## The claims -/

/-- C3: in every run of `HandleImagePP`, whatever the collaborators return,
the status values written to the Job Store are `[]`, `[processing]`,
`[processing, failed]` or `[processing, completed]`, whether every issued
write is counted or only the writes that returned no error; "pending" is
never written; every object-store call or pipeline step comes after a successful
write of "processing"; no call at all follows a write of "failed" or
"completed"; and a write of "completed" comes right after a successful
upload. -/
theorem worker_status_sequence {σ Img : Type} (env : Env σ Img) (w : σ) (payload : Bytes) :
    (statusWrites (HandleImagePP env w payload).log = [] ∨
      statusWrites (HandleImagePP env w payload).log = ["processing"] ∨
      statusWrites (HandleImagePP env w payload).log = ["processing", "failed"] ∨
      statusWrites (HandleImagePP env w payload).log = ["processing", "completed"]) ∧
    (committedWrites (HandleImagePP env w payload).log = [] ∨
      committedWrites (HandleImagePP env w payload).log = ["processing"] ∨
      committedWrites (HandleImagePP env w payload).log = ["processing", "failed"] ∨
      committedWrites (HandleImagePP env w payload).log = ["processing", "completed"]) ∧
    "pending" ∉ statusWrites (HandleImagePP env w payload).log ∧
    (∀ pre ev post, (HandleImagePP env w payload).log = pre ++ ev :: post →
      ev.isStatus = false →
      ∃ id pre2, pre = Event.updateImageStatus id "processing" none :: pre2) ∧
    (∀ pre id s err post,
      (HandleImagePP env w payload).log = pre ++ Event.updateImageStatus id s err :: post →
      s = "failed" ∨ s = "completed" → post = []) ∧
    (∀ pre id err post,
      (HandleImagePP env w payload).log =
        pre ++ Event.updateImageStatus id "completed" err :: post →
      ∃ pre2 b k d, pre = pre2 ++ [Event.upload b k d none]) := by
  have hseq : statusWrites (HandleImagePP env w payload).log = [] ∨
      statusWrites (HandleImagePP env w payload).log = ["processing"] ∨
      statusWrites (HandleImagePP env w payload).log = ["processing", "failed"] ∨
      statusWrites (HandleImagePP env w payload).log = ["processing", "completed"] := by
    rcases HandleImagePP_shape env w payload with h | ⟨id, err, h⟩ | ⟨id, tail, h, calls, hc, ht⟩
    · rw [h]; exact Or.inl rfl
    · rw [h]; exact Or.inr (Or.inl rfl)
    · rw [h]
      rcases ht with ht | ⟨id2, err2, rfl⟩ | ⟨id2, err2, c, b, k, d, _, rfl⟩
      · right; left
        have := statusWrites_calls calls hc []
        simp only [List.append_nil] at this
        simp [statusWrites, ht, this]
      · right; right; left
        simp [statusWrites, statusWrites_calls calls hc]
      · right; right; right
        simp [statusWrites, statusWrites_calls calls hc]
  have hcom : committedWrites (HandleImagePP env w payload).log = [] ∨
      committedWrites (HandleImagePP env w payload).log = ["processing"] ∨
      committedWrites (HandleImagePP env w payload).log = ["processing", "failed"] ∨
      committedWrites (HandleImagePP env w payload).log = ["processing", "completed"] := by
    rcases HandleImagePP_shape env w payload with h | ⟨id, err, h⟩ | ⟨id, tail, h, calls, hc, ht⟩
    · rw [h]; exact Or.inl rfl
    · rw [h]
      rcases committedWrites_single id "processing" err with h2 | h2 <;> rw [h2]
      · exact Or.inl rfl
      · exact Or.inr (Or.inl rfl)
    · rw [h]
      rcases ht with ht | ⟨id2, err2, rfl⟩ | ⟨id2, err2, c, b, k, d, _, rfl⟩
      · right; left
        have := committedWrites_calls calls hc []
        simp only [List.append_nil] at this
        simp [committedWrites, ht, this]
      · simp only [committedWrites, committedWrites_calls calls hc]
        rcases committedWrites_single id2 "failed" err2 with h2 | h2 <;> rw [h2]
        · exact Or.inr (Or.inl rfl)
        · exact Or.inr (Or.inr (Or.inl rfl))
      · simp only [committedWrites, committedWrites_calls calls hc]
        rcases committedWrites_single id2 "completed" err2 with h2 | h2 <;> rw [h2]
        · exact Or.inr (Or.inl rfl)
        · exact Or.inr (Or.inr (Or.inr rfl))
  refine ⟨hseq, hcom, ?_, ?_, ?_, ?_⟩
  · rcases hseq with h | h | h | h <;> rw [h] <;> decide
  · intro pre ev post heq hev
    rcases HandleImagePP_shape env w payload with h | ⟨id, err, h⟩ | ⟨id, tail, h, _⟩
    · rw [h] at heq
      simp at heq
    · rw [h] at heq
      cases pre with
      | nil =>
        simp only [List.nil_append, List.cons.injEq] at heq
        rw [← heq.1] at hev
        cases hev
      | cons a pre2 =>
        simp only [List.cons_append, List.cons.injEq] at heq
        have := heq.2
        simp at this
    · rw [h] at heq
      cases pre with
      | nil =>
        simp only [List.nil_append, List.cons.injEq] at heq
        rw [← heq.1] at hev
        cases hev
      | cons a pre2 =>
        simp only [List.cons_append, List.cons.injEq] at heq
        exact ⟨id, pre2, by rw [← heq.1]⟩
  · intro pre id s err post heq hs
    have hne : s ≠ "processing" := by
      rcases hs with rfl | rfl <;> decide
    rcases HandleImagePP_shape env w payload with h | ⟨id1, err1, h⟩ |
      ⟨id1, tail, h, calls, hc, ht⟩
    · rw [h] at heq
      simp at heq
    · rw [h] at heq
      cases pre with
      | nil =>
        simp only [List.nil_append, List.cons.injEq] at heq
        exact heq.2.symm
      | cons a pre2 =>
        simp only [List.cons_append, List.cons.injEq] at heq
        have := heq.2
        simp at this
    · rw [h] at heq
      cases pre with
      | nil =>
        simp only [List.nil_append, List.cons.injEq, Event.updateImageStatus.injEq] at heq
        exact absurd heq.1.2.1.symm hne
      | cons a pre2 =>
        simp only [List.cons_append, List.cons.injEq] at heq
        rcases ht with ht | ⟨id2, err2, ht⟩ | ⟨id2, err2, c, b, k, d, _, ht⟩ <;>
          rw [ht] at heq
        · exact absurd heq.2
            (split_calls_none calls hc (Event.updateImageStatus id s err) rfl pre2 post)
        · exact (split_calls_last calls hc _ (Event.updateImageStatus id s err) rfl
            pre2 post heq.2).2.2
        · exact (split_calls_last calls hc _ (Event.updateImageStatus id s err) rfl
            pre2 post heq.2).2.2
  · intro pre id err post heq
    rcases HandleImagePP_shape env w payload with h | ⟨id1, err1, h⟩ |
      ⟨id1, tail, h, calls, hc, ht⟩
    · rw [h] at heq
      simp at heq
    · rw [h] at heq
      cases pre with
      | nil =>
        simp only [List.nil_append, List.cons.injEq, Event.updateImageStatus.injEq] at heq
        exact absurd heq.1.2.1 (by decide)
      | cons a pre2 =>
        simp only [List.cons_append, List.cons.injEq] at heq
        have := heq.2
        simp at this
    · rw [h] at heq
      cases pre with
      | nil =>
        simp only [List.nil_append, List.cons.injEq, Event.updateImageStatus.injEq] at heq
        exact absurd heq.1.2.1 (by decide)
      | cons a pre2 =>
        simp only [List.cons_append, List.cons.injEq] at heq
        rcases ht with ht | ⟨id2, err2, ht⟩ | ⟨id2, err2, c, b, k, d, hcalls, ht⟩ <;>
          rw [ht] at heq
        · exact absurd heq.2
            (split_calls_none calls hc (Event.updateImageStatus id "completed" err) rfl pre2 post)
        · have h3 := (split_calls_last calls hc _ (Event.updateImageStatus id "completed" err)
            rfl pre2 post heq.2).2.1
          simp only [Event.updateImageStatus.injEq] at h3
          exact absurd h3.2.1 (by decide)
        · have h3 := (split_calls_last calls hc _ (Event.updateImageStatus id "completed" err)
            rfl pre2 post heq.2).1
          refine ⟨a :: c, b, k, d, ?_⟩
          rw [h3, hcalls]
          rfl

/-- C1 (counterexample): with two compress entries carrying quality 10,
format png, 100x50 and quality 90, format jpeg, 800x600, the worker encodes
with the parameters of the first entry and uploads to `processed/7.png`; the
parameters of the last entry are not used. -/
theorem last_compress_not_effective :
    parseCompressParams secondCompressParams =
      { Quality := 90, Format := "jpeg", MaxWidth := 800, MaxHeight := 600 } ∧
    compressParamsOf twoCompress =
      some { Quality := 10, Format := "png", MaxWidth := 100, MaxHeight := 50 } ∧
    (HandleImagePP (okEnv (job7 twoCompress)) () []).log =
      [ Event.updateImageStatus 7 "processing" none,
        Event.newS3Service "b" none,
        Event.download "b" "k.jpg" none,
        Event.decode none,
        Event.compress { Quality := 10, Format := "png", MaxWidth := 100, MaxHeight := 50 } none,
        Event.upload "b" "processed/7.png" [7] none,
        Event.updateImageStatus 7 "completed" none ] := by
  refine ⟨by decide, by decide, by decide⟩

/-- C1 (amended): for every operation list whose first entry of type
"compress" has object params `m`, the configuration the worker passes to the
encoder is the one parsed from that FIRST compress entry, whatever entries
follow it. -/
theorem first_compress_effective {σ Img : Type} (env : Env σ Img) (w : σ) (payload : Bytes)
    (p : Job) (pre post : List GoMap) (op : GoMap) (m : GoMap)
    (hp : env.unmarshal payload = Except.ok p)
    (hops : p.Operations = pre ++ op :: post)
    (hpre : ∀ o ∈ pre, opType o ≠ "compress") (hop : opType op = "compress")
    (hm : GoAny.index op "params" = GoAny.map m) :
    compressParamsOf p.Operations = some (parseCompressParams m) ∧
    ∀ cp err, Event.compress cp err ∈ (HandleImagePP env w payload).log →
      cp = parseCompressParams m := by
  have h1 : compressParamsOf p.Operations = some (parseCompressParams m) := by
    rw [hops]
    exact compressParamsOf_first pre post op m hpre hop hm
  refine ⟨h1, ?_⟩
  intro cp err hev
  have h2 : compressParamsOf p.Operations = some cp :=
    HandleImagePP_eventOK env w payload p hp _ hev
  rw [h1] at h2
  exact (Option.some.inj h2).symm

/-- Witness of `first_compress_effective`: on `twoCompress` the encoder is
called, and called with quality 10, format png, 100x50. -/
theorem first_compress_effective_witness :
    Event.compress { Quality := 10, Format := "png", MaxWidth := 100, MaxHeight := 50 } none ∈
      (HandleImagePP (okEnv (job7 twoCompress)) () []).log ∧
    ({ Quality := 10, Format := "png", MaxWidth := 100, MaxHeight := 50 } : CompressParams) =
      parseCompressParams firstCompressParams :=
  ⟨by decide,
   (first_compress_effective (okEnv (job7 twoCompress)) () [] (job7 twoCompress) []
      [mkOp "compress" secondCompressParams] (mkOp "compress" firstCompressParams)
      firstCompressParams rfl rfl (by simp) (by decide) rfl).2 _ none (by decide)⟩

/-- On a payload that deserializes to the envelope `p`, in every run in
which the download, the decode, a watermark transform, the encode or the
upload fails with the error `e`, the last call of the run is a Job Store
write of status "failed" to row `int32(p.ImageID)` (the job's own row
whenever the ID fits 32 bits), and the run returns an error wrapping `e`,
whatever that write returns. -/
theorem failure_writes_failed {σ Img : Type} (env : Env σ Img) (w : σ) (payload : Bytes)
    (p : Job) (e : GoError) (hp : env.unmarshal payload = Except.ok p)
    (hfail : (∃ b k, Event.download b k (some e) ∈ (HandleImagePP env w payload).log) ∨
      Event.decode (some e) ∈ (HandleImagePP env w payload).log ∨
      (∃ wp, Event.applyWatermark wp (some e) ∈ (HandleImagePP env w payload).log) ∨
      (∃ cp, Event.compress cp (some e) ∈ (HandleImagePP env w payload).log) ∨
      (∃ b k d, Event.upload b k d (some e) ∈ (HandleImagePP env w payload).log)) :
    (∃ pre err, (HandleImagePP env w payload).log =
      pre ++ [Event.updateImageStatus (toInt32 p.ImageID) "failed" err]) ∧
    (∃ text, (HandleImagePP env w payload).outcome =
      Outcome.error (GoError.wrapf text e)) ∧
    (-(2 ^ 31) ≤ p.ImageID → p.ImageID < 2 ^ 31 → toInt32 p.ImageID = p.ImageID) := by
  have h := HandleImagePP_failureHandled env w payload p hp
  refine ⟨?_, ?_, toInt32_of_fits p.ImageID⟩
  · rcases hfail with ⟨b, k, hm⟩ | hm | ⟨wp, hm⟩ | ⟨cp, hm⟩ | ⟨b, k, d, hm⟩
    · exact (h _ hm e rfl).1
    · exact (h _ hm e rfl).1
    · exact (h _ hm e rfl).1
    · exact (h _ hm e rfl).1
    · exact (h _ hm e rfl).1
  · rcases hfail with ⟨b, k, hm⟩ | hm | ⟨wp, hm⟩ | ⟨cp, hm⟩ | ⟨b, k, d, hm⟩
    · exact (h _ hm e rfl).2
    · exact (h _ hm e rfl).2
    · exact (h _ hm e rfl).2
    · exact (h _ hm e rfl).2
    · exact (h _ hm e rfl).2

/-- Witness of `failure_writes_failed`: the download fails and the write of
"failed" fails as well; the run still returns the download error, wrapped. -/
theorem failure_writes_failed_witness :
    (HandleImagePP (downloadFailsEnv (job7 oneWatermark)) () []).log =
      [ Event.updateImageStatus 7 "processing" none,
        Event.newS3Service "b" none,
        Event.download "b" "k.jpg" (some (GoError.external "no such key")),
        Event.updateImageStatus 7 "failed" (some (GoError.external "db down")) ] ∧
    (HandleImagePP (downloadFailsEnv (job7 oneWatermark)) () []).outcome =
      Outcome.error (GoError.wrapf "failed to download image" (GoError.external "no such key")) ∧
    ∃ text, (HandleImagePP (downloadFailsEnv (job7 oneWatermark)) () []).outcome =
      Outcome.error (GoError.wrapf text (GoError.external "no such key")) :=
  ⟨by decide, by decide,
   (failure_writes_failed (downloadFailsEnv (job7 oneWatermark)) () [] (job7 oneWatermark)
      (GoError.external "no such key") rfl (Or.inl ⟨"b", "k.jpg", by decide⟩)).2.1⟩

/-- C2 (the code at the failing input): for the validated envelope with
`image_id` 2^32 + 7 and a failing download, the run returns the download
error, wrapped, but the write of "failed" goes to row 7, as did the write
of "processing"; no status write addresses row 4294967303, the job of the
envelope. -/
theorem failed_write_misses_wide_job :
    validJob jobWide ∧
    jobWide.ImageID = 4294967303 ∧
    (HandleImagePP (downloadErrorEnv jobWide) () []).log =
      [ Event.updateImageStatus 7 "processing" none,
        Event.newS3Service "b" none,
        Event.download "b" "k.jpg" (some (GoError.external "no such key")),
        Event.updateImageStatus 7 "failed" none ] ∧
    (HandleImagePP (downloadErrorEnv jobWide) () []).outcome =
      Outcome.error
        (GoError.wrapf "failed to download image" (GoError.external "no such key")) := by
  refine ⟨by decide, rfl, by decide, by decide⟩

/-- Witness of `worker_status_sequence`: a run in which every collaborator
succeeds writes "processing" first and "completed" last, right after the
upload. -/
theorem worker_status_sequence_witness :
    (HandleImagePP (okEnv (job7 [])) () []).log =
      [ Event.updateImageStatus 7 "processing" none,
        Event.newS3Service "b" none,
        Event.download "b" "k.jpg" none,
        Event.decode none,
        Event.compress { Quality := 85, Format := "jpeg", MaxWidth := 0, MaxHeight := 0 } none,
        Event.upload "b" "processed/7.jpg" [7] none ] ++
      Event.updateImageStatus 7 "completed" none :: [] ∧
    ∃ pre2 b k d,
      [ Event.updateImageStatus 7 "processing" none,
        Event.newS3Service "b" none,
        Event.download "b" "k.jpg" none,
        Event.decode none,
        Event.compress { Quality := 85, Format := "jpeg", MaxWidth := 0, MaxHeight := 0 } none,
        Event.upload "b" "processed/7.jpg" [7] none ] = pre2 ++ [Event.upload b k d none] :=
  ⟨by decide,
   (worker_status_sequence (okEnv (job7 [])) () []).2.2.2.2.2 _ 7 none [] (by decide)⟩

/-- C4: a payload that fails to deserialize, or that deserializes to an
envelope with `image_id` 0, an empty `bucket_name` or an empty `image_key`,
makes `HandleImagePP` return an error without any Job Store write or
object-store call (no call at all, the world unchanged); an envelope with a
non-zero ID and both strings non-empty makes the run start with the write of
"processing". -/
theorem invalid_payload_rejected {σ Img : Type} (env : Env σ Img) (w : σ) (payload : Bytes) :
    (∀ e, env.unmarshal payload = Except.error e →
      (HandleImagePP env w payload).log = [] ∧ (HandleImagePP env w payload).world = w ∧
      (HandleImagePP env w payload).outcome =
        Outcome.error (GoError.wrapf "failed to unmarshal job payload" e)) ∧
    (∀ p, env.unmarshal payload = Except.ok p →
      p.ImageID = 0 ∨ p.BucketName = "" ∨ p.ImageKey = "" →
      (HandleImagePP env w payload).log = [] ∧ (HandleImagePP env w payload).world = w ∧
      (HandleImagePP env w payload).outcome =
        Outcome.error (GoError.errorf "invalid job payload: missing required fields")) ∧
    (∀ p, env.unmarshal payload = Except.ok p →
      p.ImageID ≠ 0 → p.BucketName ≠ "" → p.ImageKey ≠ "" →
      ∃ err rest, (HandleImagePP env w payload).log =
        Event.updateImageStatus (toInt32 p.ImageID) "processing" err :: rest) := by
  refine ⟨?_, ?_, ?_⟩
  · intro e he
    simp [HandleImagePP, he]
  · intro p hp hbad
    rw [HandleImagePP_invalid env w payload p hp (by unfold validJob; exact not_not.mpr hbad)]
    exact ⟨rfl, rfl, rfl⟩
  · intro p hp h1 h2 h3
    have hv : validJob p := by
      unfold validJob
      rintro (h | h | h)
      · exact h1 h
      · exact h2 h
      · exact h3 h
    rw [HandleImagePP_valid env w payload p hp hv]
    rcases processingStage_cases env w p with ⟨e, w2, h⟩ | ⟨w2, h⟩ <;> rw [h]
    · exact ⟨_, [], rfl⟩
    · exact ⟨_, _, rfl⟩

/-- Witness of `invalid_payload_rejected`: a payload that does not
deserialize, an envelope with ID 0, and a valid envelope. -/
theorem invalid_payload_rejected_witness :
    (HandleImagePP badPayloadEnv () []).log = [] ∧
    (HandleImagePP (okEnv jobZero) () []).log = [] ∧
    ∃ err rest, (HandleImagePP (okEnv (job7 [])) () []).log =
      Event.updateImageStatus (toInt32 7) "processing" err :: rest :=
  ⟨((invalid_payload_rejected badPayloadEnv () []).1 _ rfl).1,
   ((invalid_payload_rejected (okEnv jobZero) () []).2.1 jobZero rfl (Or.inl rfl)).1,
   (invalid_payload_rejected (okEnv (job7 [])) () []).2.2 (job7 []) rfl
     (by decide) (by decide) (by decide)⟩

/-- C5: on a payload that deserializes to the envelope `p`, whenever the run
reaches the upload, the upload key is exactly `processed/<ID>.jpg` if the
format of the effective compress configuration is "jpeg" (in particular if
the operation list has no compress entry) and exactly `processed/<ID>.png`
if it is "png", the ID being rendered in decimal. -/
theorem upload_key_format {σ Img : Type} (env : Env σ Img) (w : σ) (payload : Bytes)
    (p : Job) (b key : String) (data : Bytes) (err : Option GoError)
    (hp : env.unmarshal payload = Except.ok p)
    (hup : Event.upload b key data err ∈ (HandleImagePP env w payload).log) :
    (∀ cp, compressParamsOf p.Operations = some cp → cp.Format = "jpeg" →
      key = "processed/" ++ fmtD p.ImageID ++ ".jpg") ∧
    (∀ cp, compressParamsOf p.Operations = some cp → cp.Format = "png" →
      key = "processed/" ++ fmtD p.ImageID ++ ".png") ∧
    ((∀ op ∈ p.Operations, opType op ≠ "compress") →
      key = "processed/" ++ fmtD p.ImageID ++ ".jpg") := by
  obtain ⟨_, cp0, hcp0, hkey⟩ := HandleImagePP_eventOK env w payload p hp _ hup
  have hj : ∀ cp, compressParamsOf p.Operations = some cp → cp.Format = "jpeg" →
      key = "processed/" ++ fmtD p.ImageID ++ ".jpg" := by
    intro cp hcp hf
    rw [hcp0] at hcp
    obtain rfl := Option.some.inj hcp
    rw [hkey, outputKey, hf]
    simp only [if_true, String.append_assoc]
    rfl
  refine ⟨hj, ?_, ?_⟩
  · intro cp hcp hf
    rw [hcp0] at hcp
    obtain rfl := Option.some.inj hcp
    rw [hkey, outputKey, hf]
    simp only [String.append_assoc]
    rfl
  · intro hnone
    exact hj _ (compressParamsOf_none_compress p.Operations hnone) rfl

/-- Witness of `upload_key_format`: a single watermark operation on job 7
is uploaded to `processed/7.jpg`. -/
theorem upload_key_format_witness :
    Event.upload "b" "processed/7.jpg" [7] none ∈
      (HandleImagePP (okEnv (job7 oneWatermark)) () []).log ∧
    "processed/7.jpg" = "processed/" ++ fmtD 7 ++ ".jpg" ∧
    fmtD (-12) = "-12" :=
  ⟨by decide,
   (upload_key_format (okEnv (job7 oneWatermark)) () [] (job7 oneWatermark) "b"
      "processed/7.jpg" [7] none rfl (by decide)).2.2 (by decide),
   by decide⟩

/-- C6 (the code at the failing input): for the format "webp" `Compress`
encodes with the JPEG encoder at quality 85, while the upload key built by
the worker ends in ".webp"; in the run on job 7 the object
`processed/7.webp` receives JPEG bytes. The same holds for the empty format
string, whose key is `processed/7.`. -/
theorem webp_key_holds_jpeg_bytes :
    (∀ (codec : Codec Nat) (img : Nat) (q : Int),
      Compress codec img { Quality := q, Format := "webp", MaxWidth := 0, MaxHeight := 0 } =
        codec.jpegEncode img 85) ∧
    outputKey 7 "webp" = "processed/7.webp" ∧
    outputKey 7 "" = "processed/7." ∧
    Event.upload "b" "processed/7.webp" [255, 216, 85] none ∈
      (HandleImagePP ((okEnv (job7 webpCompress)).withServices tagGfx tagCodec) () []).log := by
  refine ⟨?_, by decide, by decide, by decide⟩
  intro codec img q
  simp [Compress, resizeFor]

/-- C7 (counterexample): with format "jpg" and quality 50, `Compress` uses
the JPEG encoder at quality 50, not at quality 85. -/
theorem jpg_keeps_quality :
    Compress tagCodec 0 { Quality := 50, Format := "jpg", MaxWidth := 0, MaxHeight := 0 } =
      tagCodec.jpegEncode 0 50 ∧
    tagCodec.jpegEncode 0 50 ≠ tagCodec.jpegEncode 0 85 := by
  refine ⟨rfl, ?_⟩
  intro h
  have h2 := Except.ok.inj h
  revert h2
  decide

/-- C7 (amended): for every image and every `CompressParams`, `Compress`
(after the optional resize) uses the JPEG encoder when the format is "jpeg"
or "jpg", with quality `q` when `1 ≤ q ≤ 100` and quality 85 for every other
`q`; the PNG encoder at the default compression level when the format is
"png", whatever the quality; and the JPEG encoder at quality 85 for every
other format string, whatever the quality. -/
theorem compress_encoder_choice {Img : Type} (codec : Codec Img) (img : Img)
    (params : CompressParams) :
    (params.Format = "jpeg" ∨ params.Format = "jpg" →
      (1 ≤ params.Quality ∧ params.Quality ≤ 100 →
        Compress codec img params =
          codec.jpegEncode (resizeFor codec img params) params.Quality) ∧
      (¬ (1 ≤ params.Quality ∧ params.Quality ≤ 100) →
        Compress codec img params = codec.jpegEncode (resizeFor codec img params) 85)) ∧
    (params.Format = "png" →
      Compress codec img params =
        codec.pngEncode PngCompressionLevel.DefaultCompression (resizeFor codec img params)) ∧
    (params.Format ≠ "jpeg" → params.Format ≠ "jpg" → params.Format ≠ "png" →
      Compress codec img params = codec.jpegEncode (resizeFor codec img params) 85) := by
  refine ⟨?_, ?_, ?_⟩
  · intro hf
    refine ⟨?_, ?_⟩
    · intro hq
      have hq2 : ¬ (params.Quality < 1 ∨ params.Quality > 100) := by omega
      simp only [Compress, hf, if_true, hq2, if_false]
    · intro hq
      have hq2 : params.Quality < 1 ∨ params.Quality > 100 := by omega
      simp only [Compress, hf, if_true, hq2]
  · intro hf
    simp only [Compress, hf]
    rw [if_neg (by decide), if_pos trivial]
  · intro h1 h2 h3
    have h4 : ¬ (params.Format = "jpeg" ∨ params.Format = "jpg") := by
      rintro (h | h)
      · exact h1 h
      · exact h2 h
    simp only [Compress, h4, if_false, h3]

/-- Witness of `compress_encoder_choice`: `{quality: 150}` parses to quality
150, format jpeg, and is encoded by the JPEG encoder at quality 85; format
"png" goes to the PNG encoder and format "webp" to the JPEG encoder at 85. -/
theorem compress_encoder_choice_witness :
    parseCompressParams [("quality", GoAny.float64 150)] =
      { Quality := 150, Format := "jpeg", MaxWidth := 0, MaxHeight := 0 } ∧
    Compress tagCodec 0 { Quality := 150, Format := "jpeg", MaxWidth := 0, MaxHeight := 0 } =
      tagCodec.jpegEncode 0 85 ∧
    Compress tagCodec 0 { Quality := 40, Format := "png", MaxWidth := 0, MaxHeight := 0 } =
      tagCodec.pngEncode PngCompressionLevel.DefaultCompression 0 ∧
    Compress tagCodec 0 { Quality := 40, Format := "webp", MaxWidth := 0, MaxHeight := 0 } =
      tagCodec.jpegEncode 0 85 :=
  ⟨by decide,
   ((compress_encoder_choice tagCodec 0
      { Quality := 150, Format := "jpeg", MaxWidth := 0, MaxHeight := 0 }).1
      (Or.inl rfl)).2 (by decide),
   (compress_encoder_choice tagCodec 0
      { Quality := 40, Format := "png", MaxWidth := 0, MaxHeight := 0 }).2.1 rfl,
   (compress_encoder_choice tagCodec 0
      { Quality := 40, Format := "webp", MaxWidth := 0, MaxHeight := 0 }).2.2
      (by decide) (by decide) (by decide)⟩

/-- C8 (the code at the failing input): a six-character string with a
non-hexadecimal character does not give white. "GGGGGG" gives black
`(0,0,0,255)`, "FFZZ00" gives red `(255,0,0,255)`, and "12345G" gives
`(18,52,5,255)`: the bytes scanned before the first bad character are kept
and the rest stay zero. -/
theorem parseColor_non_hex :
    parseColor "GGGGGG" = { R := 0, G := 0, B := 0, A := 255 } ∧
    parseColor "FFZZ00" = { R := 255, G := 0, B := 0, A := 255 } ∧
    parseColor "#GGGGGG" = { R := 0, G := 0, B := 0, A := 255 } ∧
    parseColor "12345G" = { R := 18, G := 52, B := 5, A := 255 } := by
  refine ⟨by decide, by decide, by decide, by decide⟩

/-- C9: for every canvas width and height and every measured text size
`tw` x `th`, the anchor computed by `ApplyWatermark` is the one of the
layout table (every arithmetic operation being the `float64` one): top-left
(20, 20+th); top-right (width-tw-20, 20+th); bottom-left (20, height-20);
bottom-right (width-tw-20, height-20); center ((width-tw)/2, (height+th)/2);
every other position string gives the bottom-right anchor; and
`ApplyWatermark` returns no error: it returns the image drawn at the anchor
of `params.Position`. -/
theorem anchor_layout (rnd : ℚ → ℚ) (width height : Int) (tw th : ℚ) :
    anchor rnd width height tw th "top-left" = (20, rnd (20 + th)) ∧
    anchor rnd width height tw th "top-right" =
      (rnd (rnd (rnd (width : ℚ) - tw) - 20), rnd (20 + th)) ∧
    anchor rnd width height tw th "bottom-left" = (20, rnd (rnd (height : ℚ) - 20)) ∧
    anchor rnd width height tw th "bottom-right" =
      (rnd (rnd (rnd (width : ℚ) - tw) - 20), rnd (rnd (height : ℚ) - 20)) ∧
    anchor rnd width height tw th "center" =
      (rnd (rnd (rnd (width : ℚ) - tw) / 2), rnd (rnd (rnd (height : ℚ) + th) / 2)) ∧
    (∀ position : String, position ≠ "top-left" → position ≠ "top-right" →
      position ≠ "bottom-left" → position ≠ "bottom-right" → position ≠ "center" →
      anchor rnd width height tw th position =
        anchor rnd width height tw th "bottom-right") ∧
    (∀ (Img : Type) (gfx : Gfx Img) (img : Img) (params : WatermarkParams),
      ApplyWatermark gfx rnd img params =
        Except.ok (gfx.drawStringAnchored img (fontSizeOf params) (textColorOf rnd params)
          params.Text
          (anchor rnd (gfx.Dx img) (gfx.Dy img)
            (gfx.measureString (fontSizeOf params) params.Text).1
            (gfx.measureString (fontSizeOf params) params.Text).2 params.Position).1
          (anchor rnd (gfx.Dx img) (gfx.Dy img)
            (gfx.measureString (fontSizeOf params) params.Text).1
            (gfx.measureString (fontSizeOf params) params.Text).2 params.Position).2)) := by
  refine ⟨?_, ?_, ?_, ?_, ?_, ?_, ?_⟩
  · simp [anchor]
  · simp [anchor]
  · simp [anchor]
  · simp [anchor]
  · simp [anchor]
  · intro position h1 h2 h3 h4 h5
    simp [anchor, h1, h2, h3, h4, h5]
  · intro Img gfx img params
    rfl

/-- Witness of `anchor_layout`: on a 200 x 200 canvas with 10 x 10 text and
exact arithmetic the five anchors are (20,30), (170,30), (20,180),
(170,180) and (95,105), and the position "middle" gets the bottom-right
anchor. -/
theorem anchor_layout_witness :
    anchor id 200 200 10 10 "top-left" = (20, 30) ∧
    anchor id 200 200 10 10 "top-right" = (170, 30) ∧
    anchor id 200 200 10 10 "bottom-left" = (20, 180) ∧
    anchor id 200 200 10 10 "bottom-right" = (170, 180) ∧
    anchor id 200 200 10 10 "center" = (95, 105) ∧
    anchor id 200 200 10 10 "middle" = anchor id 200 200 10 10 "bottom-right" :=
  ⟨by simp [anchor]; norm_num, by simp [anchor]; norm_num, by simp [anchor]; norm_num,
   by simp [anchor]; norm_num, by simp [anchor]; norm_num,
   (anchor_layout id 200 200 10 10).2.2.2.2.2.1 "middle" (by decide) (by decide) (by decide)
     (by decide) (by decide)⟩

/-- C10: for every position value (the five of the table, and any other), on
a canvas of width `w` and height `h` with text of measured size `tw` x `th`
such that `tw ≥ 0`, `th ≥ 0`, `tw + 20 ≤ w` and `th + 20 ≤ h`, the anchor
`(x, y)` satisfies `0 ≤ x ≤ w` and `0 ≤ y ≤ h`. The rounding of `float64`
arithmetic is any monotone function that leaves 0, 20, `w`, `h` and `2 * h`
unchanged (they are representable). -/
theorem anchor_within_canvas (rnd : ℚ → ℚ) (hmono : Monotone rnd) (h0 : rnd 0 = 0)
    (h20 : rnd 20 = 20) (w h : Int) (hw : rnd (w : ℚ) = w) (hh : rnd (h : ℚ) = h)
    (h2h : rnd (2 * (h : ℚ)) = 2 * h) (tw th : ℚ) (htw : 0 ≤ tw) (hth : 0 ≤ th)
    (hfw : tw + 20 ≤ w) (hfh : th + 20 ≤ h) (position : String) :
    0 ≤ (anchor rnd w h tw th position).1 ∧ (anchor rnd w h tw th position).1 ≤ w ∧
    0 ≤ (anchor rnd w h tw th position).2 ∧ (anchor rnd w h tw th position).2 ≤ h := by
  have lo : ∀ x : ℚ, 0 ≤ x → 0 ≤ rnd x := fun x hx => h0 ▸ hmono hx
  have upw : ∀ x : ℚ, x ≤ w → rnd x ≤ w := fun x hx => hw ▸ hmono hx
  have uph : ∀ x : ℚ, x ≤ h → rnd x ≤ h := fun x hx => hh ▸ hmono hx
  have ge20 : ∀ x : ℚ, 20 ≤ x → 20 ≤ rnd x := fun x hx => h20 ▸ hmono hx
  have hwt1 : 20 ≤ rnd ((w : ℚ) - tw) := ge20 _ (by linarith)
  have hwt2 : rnd ((w : ℚ) - tw) ≤ w := upw _ (by linarith)
  have hht1 : 0 ≤ rnd ((h : ℚ) + th) := lo _ (by linarith)
  have hht2 : rnd ((h : ℚ) + th) ≤ 2 * h := h2h ▸ hmono (by linarith)
  have hxr : 0 ≤ rnd (rnd ((w : ℚ) - tw) - 20) ∧ rnd (rnd ((w : ℚ) - tw) - 20) ≤ w :=
    ⟨lo _ (by linarith), upw _ (by linarith)⟩
  have hxc : 0 ≤ rnd (rnd ((w : ℚ) - tw) / 2) ∧ rnd (rnd ((w : ℚ) - tw) / 2) ≤ w :=
    ⟨lo _ (by linarith), upw _ (by linarith)⟩
  have hyt : 0 ≤ rnd (20 + th) ∧ rnd (20 + th) ≤ h :=
    ⟨lo _ (by linarith), uph _ (by linarith)⟩
  have hyb : 0 ≤ rnd ((h : ℚ) - 20) ∧ rnd ((h : ℚ) - 20) ≤ h :=
    ⟨lo _ (by linarith), uph _ (by linarith)⟩
  have hyc : 0 ≤ rnd (rnd ((h : ℚ) + th) / 2) ∧ rnd (rnd ((h : ℚ) + th) / 2) ≤ h :=
    ⟨lo _ (by linarith), uph _ (by linarith)⟩
  have hw20 : (20 : ℚ) ≤ w := by linarith
  unfold anchor
  simp only [hw, hh]
  split_ifs
  · exact ⟨by norm_num, hw20, hyt.1, hyt.2⟩
  · exact ⟨hxr.1, hxr.2, hyt.1, hyt.2⟩
  · exact ⟨by norm_num, hw20, hyb.1, hyb.2⟩
  · exact ⟨hxr.1, hxr.2, hyb.1, hyb.2⟩
  · exact ⟨hxc.1, hxc.2, hyc.1, hyc.2⟩
  · exact ⟨hxr.1, hxr.2, hyb.1, hyb.2⟩

/-- Witness of `anchor_within_canvas`: the 200 x 200 canvas with 10 x 10
text, position "center", exact arithmetic. -/
theorem anchor_within_canvas_witness :
    0 ≤ (anchor id 200 200 10 10 "center").1 ∧ (anchor id 200 200 10 10 "center").1 ≤ 200 ∧
    0 ≤ (anchor id 200 200 10 10 "center").2 ∧ (anchor id 200 200 10 10 "center").2 ≤ 200 := by
  have h := anchor_within_canvas id monotone_id rfl rfl 200 200 rfl rfl rfl 10 10
    (by norm_num) (by norm_num) (by norm_num) (by norm_num) "center"
  simpa using h

/-! ## Lemmas on the order of the operations -/

theorem watermarkFold_skip {σ Img : Type} (env : Env σ Img) (img : Img) (op : GoMap)
    (rest : List GoMap) (h : opType op ≠ "watermark") :
    watermarkFold env img (op :: rest) = watermarkFold env img rest := by
  simp [watermarkFold, watermarkEntries, h]

theorem watermarkFold_cons {σ Img : Type} (env : Env σ Img) (img : Img) (op : GoMap)
    (rest : List GoMap) (h : opType op = "watermark") :
    watermarkFold env img (op :: rest) =
      match env.ApplyWatermark img (parseWatermarkParams env.rnd (opParams op)) with
      | Except.error e => Except.error e
      | Except.ok img2 => watermarkFold env img2 rest := by
  simp only [watermarkFold, watermarkEntries, List.filter_cons, h, decide_True, if_true,
    List.map_cons, List.foldlM_cons]
  cases env.ApplyWatermark img (parseWatermarkParams env.rnd (opParams op)) <;> rfl

/-- The image the operations loop ends with is the left fold of
`ApplyWatermark` over the watermark entries. -/
theorem applyOps_eq_watermarkFold {σ Img : Type} (env : Env σ Img) (ops : List GoMap) :
    ∀ img : Img, (applyOps env img ops).2 = watermarkFold env img ops := by
  induction ops with
  | nil => intro img; rfl
  | cons op rest ih =>
    intro img
    by_cases h : opType op = "watermark"
    · rw [watermarkFold_cons env img op rest h]
      cases he : env.ApplyWatermark img (parseWatermarkParams env.rnd (opParams op)) with
      | error e => rw [applyOps_error env img op rest e h he]
      | ok img2 =>
        rw [applyOps_ok env img img2 op rest h he]
        exact ih img2
    · rw [applyOps_skip env img op rest h, watermarkFold_skip env img op rest h]
      exact ih img

/-- The operations loop sees only the watermark entries. -/
theorem applyOps_watermarkEntries {σ Img : Type} (env : Env σ Img) (ops : List GoMap) :
    ∀ img : Img, applyOps env img ops = applyOps env img (watermarkEntries ops) := by
  induction ops with
  | nil => intro img; rfl
  | cons op rest ih =>
    intro img
    by_cases h : opType op = "watermark"
    · have hw : watermarkEntries (op :: rest) = op :: watermarkEntries rest := by
        simp [watermarkEntries, h]
      rw [hw]
      cases he : env.ApplyWatermark img (parseWatermarkParams env.rnd (opParams op)) with
      | error e =>
        rw [applyOps_error env img op rest e h he, applyOps_error env img op _ e h he]
      | ok img2 =>
        rw [applyOps_ok env img img2 op rest h he, applyOps_ok env img img2 op _ h he, ih img2]
    · have hw : watermarkEntries (op :: rest) = watermarkEntries rest := by
        simp [watermarkEntries, h]
      rw [hw, applyOps_skip env img op rest h]
      exact ih img

/-- The compress configuration depends only on the compress entries. -/
theorem compressParamsOf_compressEntries (ops : List GoMap) :
    compressParamsOf ops = compressParamsOf (compressEntries ops) := by
  induction ops with
  | nil => rfl
  | cons op rest ih =>
    by_cases h : opType op = "compress"
    · have hc : compressEntries (op :: rest) = op :: compressEntries rest := by
        simp [compressEntries, h]
      rw [hc]
      simp only [compressParamsOf, h, if_true]
    · have hc : compressEntries (op :: rest) = compressEntries rest := by
        simp [compressEntries, h]
      rw [hc]
      simp only [compressParamsOf, h, if_false]
      exact ih

/-- When `ApplyWatermark` never fails, the fold is a plain left fold. -/
theorem watermarkFold_total {σ Img : Type} (env : Env σ Img)
    (f : Img → WatermarkParams → Img)
    (hf : ∀ i wp, env.ApplyWatermark i wp = Except.ok (f i wp)) (ops : List GoMap) :
    ∀ img : Img, watermarkFold env img ops =
      Except.ok (List.foldl f img
        ((watermarkEntries ops).map (fun op => parseWatermarkParams env.rnd (opParams op)))) := by
  induction ops with
  | nil => intro img; rfl
  | cons op rest ih =>
    intro img
    by_cases h : opType op = "watermark"
    · rw [watermarkFold_cons env img op rest h, hf]
      have hw : watermarkEntries (op :: rest) = op :: watermarkEntries rest := by
        simp [watermarkEntries, h]
      rw [hw]
      exact ih _
    · rw [watermarkFold_skip env img op rest h]
      have hw : watermarkEntries (op :: rest) = watermarkEntries rest := by
        simp [watermarkEntries, h]
      rw [hw]
      exact ih img

/-- An entry that is not of type "watermark" (type "compress", an unknown
type, no type) changes neither the calls nor the result of the operations
loop, wherever it sits. -/
theorem applyOps_remove {σ Img : Type} (env : Env σ Img) (img : Img) (pre post : List GoMap)
    (op : GoMap) (h : opType op ≠ "watermark") :
    applyOps env img (pre ++ op :: post) = applyOps env img (pre ++ post) := by
  rw [applyOps_watermarkEntries env (pre ++ op :: post),
    applyOps_watermarkEntries env (pre ++ post)]
  have : watermarkEntries (pre ++ op :: post) = watermarkEntries (pre ++ post) := by
    simp [watermarkEntries, h]
  rw [this]

/-- The image given to the encoding stage is the result of the fold. -/
theorem opsStage_encodes_fold {σ Img : Type} (env : Env σ Img) (w : σ) (p : Job)
    (img img2 : Img) (h : watermarkFold env img p.Operations = Except.ok img2) :
    opsStage env w p img =
      (encodeStage env w p img2).after (applyOps env img p.Operations).1 := by
  rw [← applyOps_eq_watermarkFold] at h
  rcases opsStage_cases env w p img with ⟨e, he, _⟩ | ⟨img3, he, hs⟩
  · rw [he] at h
    cases h
  · rw [he] at h
    obtain rfl := Except.ok.inj h
    exact hs

theorem transformCalls_append (a b : List Event) :
    transformCalls (a ++ b) = transformCalls a ++ transformCalls b := by
  simp [transformCalls]

theorem transformCalls_markFailed {σ Img : Type} (env : Env σ Img) (w : σ) (p : Job)
    (e : GoError) : transformCalls (markFailed env w p e).log = [] := rfl

theorem transformCalls_uploadStage {σ Img : Type} (env : Env σ Img) (w : σ) (p : Job)
    (cp : CompressParams) (data : Bytes) :
    transformCalls (uploadStage env w p cp data).log = [] := by
  rcases uploadStage_cases env w p cp data with ⟨e, w2, h⟩ | ⟨w2, h⟩ <;> rw [h] <;> rfl

theorem transformCalls_applyOps {σ Img : Type} (env : Env σ Img) (ops : List GoMap)
    (img : Img) :
    transformCalls (applyOps env img ops).1 = (applyOps env img ops).1 ∧
    ∀ ev ∈ (applyOps env img ops).1, ev.isWatermark = true := by
  have h : ∀ ev ∈ (applyOps env img ops).1, ev.isWatermark = true := by
    intro ev hev
    obtain ⟨wp, err, rfl⟩ := (applyOps_events env ops img).1 ev hev
    rfl
  refine ⟨?_, h⟩
  unfold transformCalls
  rw [List.filter_eq_self]
  intro ev hev
  obtain ⟨wp, err, rfl⟩ := (applyOps_events env ops img).1 ev hev
  rfl

theorem transformShape_encodeStage {σ Img : Type} (env : Env σ Img) (w : σ) (p : Job)
    (img : Img) :
    transformCalls (encodeStage env w p img).log = [] ∨
    ∃ cp err, compressParamsOf p.Operations = some cp ∧
      transformCalls (encodeStage env w p img).log = [Event.compress cp err] := by
  rcases encodeStage_cases env w p img with ⟨_, h⟩ | ⟨cp, e, hcp, h⟩ | ⟨cp, d, hcp, h⟩ <;> rw [h]
  · exact Or.inl rfl
  · exact Or.inr ⟨cp, some e, hcp, rfl⟩
  · refine Or.inr ⟨cp, none, hcp, ?_⟩
    rw [log_after, transformCalls_append, transformCalls_uploadStage]
    rfl

theorem transformShape_opsStage {σ Img : Type} (env : Env σ Img) (w : σ) (p : Job)
    (img : Img) : TransformShape p (opsStage env w p img).log := by
  obtain ⟨h1, h2⟩ := transformCalls_applyOps env p.Operations img
  refine ⟨(applyOps env img p.Operations).1, h2, ?_⟩
  rcases opsStage_cases env w p img with ⟨e, _, h⟩ | ⟨img2, _, h⟩ <;>
    rw [h, log_after, transformCalls_append, h1]
  · left
    rw [transformCalls_markFailed, List.append_nil]
  · rcases transformShape_encodeStage env w p img2 with h3 | ⟨cp, err, hcp, h3⟩ <;> rw [h3]
    · left
      rw [List.append_nil]
    · exact Or.inr ⟨cp, err, hcp, rfl⟩

theorem transformShape_nil (p : Job) (log : List Event) (h : transformCalls log = []) :
    TransformShape p log :=
  ⟨[], by simp, Or.inl h⟩

theorem transformShape_after {σ : Type} (p : Job) (ev0 : Event) (r : Run σ)
    (h0 : ev0.isTransform = false) (h : TransformShape p r.log) :
    TransformShape p (r.after [ev0]).log := by
  obtain ⟨ws, hws, hl⟩ := h
  refine ⟨ws, hws, ?_⟩
  have : transformCalls (r.after [ev0]).log = transformCalls r.log := by
    rw [log_after, transformCalls_append]
    simp [transformCalls, h0]
  rw [this]
  exact hl

theorem transformShape_processingStage {σ Img : Type} (env : Env σ Img) (w : σ) (p : Job) :
    TransformShape p (processingStage env w p).log := by
  have hm : ∀ (w2 : σ) (e : GoError), TransformShape p (markFailed env w2 p e).log :=
    fun w2 e => transformShape_nil p _ rfl
  have hdec : ∀ (w2 : σ) (d : Bytes), TransformShape p (decodeStage env w2 p d).log := by
    intro w2 d
    rcases decodeStage_cases env w2 p d with ⟨e, h⟩ | ⟨img, h⟩ <;> rw [h]
    · exact transformShape_after p _ _ rfl (hm _ _)
    · exact transformShape_after p _ _ rfl (transformShape_opsStage env _ p img)
  have hdl : ∀ w2 : σ, TransformShape p (downloadStage env w2 p).log := by
    intro w2
    rcases downloadStage_cases env w2 p with ⟨e, w3, h⟩ | ⟨d, w3, h⟩ <;> rw [h]
    · exact transformShape_after p _ _ rfl (hm _ _)
    · exact transformShape_after p _ _ rfl (hdec _ _)
  have hsv : ∀ w2 : σ, TransformShape p (serviceStage env w2 p).log := by
    intro w2
    rcases serviceStage_cases env w2 p with ⟨e, w3, h⟩ | ⟨w3, h⟩ <;> rw [h]
    · exact transformShape_after p _ _ rfl (hm _ _)
    · exact transformShape_after p _ _ rfl (hdl _)
  rcases processingStage_cases env w p with ⟨e, w2, h⟩ | ⟨w2, h⟩ <;> rw [h]
  · exact transformShape_nil p _ rfl
  · exact transformShape_after p _ _ rfl (hsv _)

/-- The worker's run depends on the operation list only through its
watermark entries and its compress entries. -/
theorem processingStage_reorder {σ Img : Type} (env : Env σ Img) (w : σ) (p : Job)
    (ops2 : List GoMap) (hW : watermarkEntries ops2 = watermarkEntries p.Operations)
    (hC : compressEntries ops2 = compressEntries p.Operations) :
    processingStage env w { p with Operations := ops2 } = processingStage env w p := by
  have hcp : compressParamsOf ops2 = compressParamsOf p.Operations := by
    rw [compressParamsOf_compressEntries ops2, compressParamsOf_compressEntries p.Operations, hC]
  have happ : ∀ img : Img, applyOps env img ops2 = applyOps env img p.Operations := by
    intro img
    rw [applyOps_watermarkEntries env ops2, applyOps_watermarkEntries env p.Operations, hW]
  have henc : ∀ (w2 : σ) (img : Img),
      encodeStage env w2 { p with Operations := ops2 } img = encodeStage env w2 p img := by
    intro w2 img
    unfold encodeStage
    simp only [hcp]
    rfl
  have hops : ∀ (w2 : σ) (img : Img),
      opsStage env w2 { p with Operations := ops2 } img = opsStage env w2 p img := by
    intro w2 img
    unfold opsStage
    simp only [happ, henc]
    rfl
  have hdec : ∀ (w2 : σ) (d : Bytes),
      decodeStage env w2 { p with Operations := ops2 } d = decodeStage env w2 p d := by
    intro w2 d
    unfold decodeStage
    simp only [hops]
    rfl
  have hdl : ∀ w2 : σ,
      downloadStage env w2 { p with Operations := ops2 } = downloadStage env w2 p := by
    intro w2
    unfold downloadStage
    simp only [hdec]
    rfl
  have hsv : ∀ w2 : σ,
      serviceStage env w2 { p with Operations := ops2 } = serviceStage env w2 p := by
    intro w2
    unfold serviceStage
    simp only [hdl]
    rfl
  unfold processingStage
  simp only [hsv]

theorem encode_of_ok_encodeStage {σ Img : Type} (env : Env σ Img) (w : σ) (p : Job)
    (img : Img) (h : (encodeStage env w p img).outcome = Outcome.ok) :
    ∃ cp, Event.compress cp none ∈ (encodeStage env w p img).log := by
  rcases encodeStage_cases env w p img with ⟨_, h2⟩ | ⟨cp, e, _, h2⟩ | ⟨cp, d, _, h2⟩ <;>
    rw [h2] at h ⊢
  · cases h
  · cases h
  · exact ⟨cp, by simp [log_after]⟩

theorem encode_of_ok_after {σ : Type} (evs : List Event) (r : Run σ)
    (h : r.outcome = Outcome.ok → ∃ cp, Event.compress cp none ∈ r.log) :
    (r.after evs).outcome = Outcome.ok → ∃ cp, Event.compress cp none ∈ (r.after evs).log := by
  intro ho
  obtain ⟨cp, hcp⟩ := h ho
  exact ⟨cp, by rw [log_after]; exact List.mem_append_right _ hcp⟩

theorem encode_of_ok_markFailed {σ Img : Type} (env : Env σ Img) (w : σ) (p : Job)
    (e : GoError) (evs : List Event) :
    ((markFailed env w p e).after evs).outcome = Outcome.ok →
      ∃ cp, Event.compress cp none ∈ ((markFailed env w p e).after evs).log := by
  intro h
  cases h

/-- A run that returns nil has called the encoder successfully. -/
theorem encode_of_ok_processingStage {σ Img : Type} (env : Env σ Img) (w : σ) (p : Job) :
    (processingStage env w p).outcome = Outcome.ok →
      ∃ cp, Event.compress cp none ∈ (processingStage env w p).log := by
  have hops : ∀ (w2 : σ) (img : Img), (opsStage env w2 p img).outcome = Outcome.ok →
      ∃ cp, Event.compress cp none ∈ (opsStage env w2 p img).log := by
    intro w2 img
    rcases opsStage_cases env w2 p img with ⟨e, _, h⟩ | ⟨img2, _, h⟩ <;> rw [h]
    · exact encode_of_ok_markFailed env _ p _ _
    · exact encode_of_ok_after _ _ (encode_of_ok_encodeStage env _ p img2)
  have hdec : ∀ (w2 : σ) (d : Bytes), (decodeStage env w2 p d).outcome = Outcome.ok →
      ∃ cp, Event.compress cp none ∈ (decodeStage env w2 p d).log := by
    intro w2 d
    rcases decodeStage_cases env w2 p d with ⟨e, h⟩ | ⟨img, h⟩ <;> rw [h]
    · exact encode_of_ok_markFailed env _ p _ _
    · exact encode_of_ok_after _ _ (hops _ _)
  have hdl : ∀ w2 : σ, (downloadStage env w2 p).outcome = Outcome.ok →
      ∃ cp, Event.compress cp none ∈ (downloadStage env w2 p).log := by
    intro w2
    rcases downloadStage_cases env w2 p with ⟨e, w3, h⟩ | ⟨d, w3, h⟩ <;> rw [h]
    · exact encode_of_ok_markFailed env _ p _ _
    · exact encode_of_ok_after _ _ (hdec _ _)
  have hsv : ∀ w2 : σ, (serviceStage env w2 p).outcome = Outcome.ok →
      ∃ cp, Event.compress cp none ∈ (serviceStage env w2 p).log := by
    intro w2
    rcases serviceStage_cases env w2 p with ⟨e, w3, h⟩ | ⟨w3, h⟩ <;> rw [h]
    · exact encode_of_ok_markFailed env _ p _ _
    · exact encode_of_ok_after _ _ (hdl _)
  rcases processingStage_cases env w p with ⟨e, w2, h⟩ | ⟨w2, h⟩ <;> rw [h]
  · intro ho
    cases ho
  · exact encode_of_ok_after _ _ (hsv _)

/-- In every run on a payload that deserializes to `p` the transform calls
are watermark calls followed by at most one encoding call; a run that
returns nil has made exactly one, and it succeeded. -/
theorem HandleImagePP_transformShape {σ Img : Type} (env : Env σ Img) (w : σ)
    (payload : Bytes) (p : Job) (hp : env.unmarshal payload = Except.ok p) :
    TransformShape p (HandleImagePP env w payload).log ∧
    ((HandleImagePP env w payload).outcome = Outcome.ok →
      ∃ ws cp, (∀ ev ∈ ws, ev.isWatermark = true) ∧
        compressParamsOf p.Operations = some cp ∧
        transformCalls (HandleImagePP env w payload).log = ws ++ [Event.compress cp none]) := by
  by_cases hv : validJob p
  · rw [HandleImagePP_valid env w payload p hp hv]
    have hs := transformShape_processingStage env w p
    refine ⟨hs, ?_⟩
    intro ho
    obtain ⟨cp0, hmem⟩ := encode_of_ok_processingStage env w p ho
    have hmem2 : Event.compress cp0 none ∈ transformCalls (processingStage env w p).log := by
      unfold transformCalls
      exact List.mem_filter.mpr ⟨hmem, rfl⟩
    obtain ⟨ws, hws, hl | ⟨cp, err, hcp, hl⟩⟩ := hs
    · rw [hl] at hmem2
      have := hws _ hmem2
      cases this
    · rw [hl] at hmem2
      rcases List.mem_append.mp hmem2 with h1 | h1
      · have := hws _ h1
        cases this
      · simp only [List.mem_singleton, Event.compress.injEq] at h1
        obtain ⟨rfl, rfl⟩ := h1
        exact ⟨ws, cp0, hws, hcp, hl⟩
  · rw [HandleImagePP_invalid env w payload p hp hv]
    refine ⟨transformShape_nil p _ rfl, ?_⟩
    intro ho
    cases ho

/-! ## The claims on the operation list and the job ID -/

/-- C11 (the code at the failing input): on the list of a watermark entry
followed by `{"type": "compress"}` the watermark is applied, and then the
run aborts with a run-time panic before the encoder is called: the compress
entry makes the run fail, and no status "failed" is written. Without that
entry the same run returns nil. -/
theorem compress_entry_fails_run :
    (HandleImagePP (okEnv (job7 watermarkThenBareCompress)) () []).outcome = Outcome.panic ∧
    (HandleImagePP (okEnv (job7 watermarkThenBareCompress)) () []).log.map Event.failure =
      [none, none, none, none, none] ∧
    transformCalls (HandleImagePP (okEnv (job7 watermarkThenBareCompress)) () []).log =
      [Event.applyWatermark
        (parseWatermarkParams id [("text", GoAny.string "A")]) none] ∧
    statusWrites (HandleImagePP (okEnv (job7 watermarkThenBareCompress)) () []).log =
      ["processing"] ∧
    (HandleImagePP (okEnv (job7 [mkOp "watermark" [("text", GoAny.string "A")]])) () []).outcome =
      Outcome.ok := by
  refine ⟨rfl, rfl, rfl, rfl, rfl⟩

/-- C12: for every operation list and every reordering of it that keeps the
watermark entries in the same relative order and the compress entries in
the same relative order, the worker ends the operations loop with the same
raster, derives the same compress configuration, builds the same output key
and in fact makes the same run (same calls, same result); and in every run
the encoder is called at most once, after all watermark calls, with the
configuration of `compressParamsOf`, exactly once in a run that returns
nil. -/
theorem reorder_same_run {σ Img : Type} (env : Env σ Img) (w : σ) (payload payload2 : Bytes)
    (p : Job) (ops2 : List GoMap) (hp : env.unmarshal payload = Except.ok p)
    (hp2 : env.unmarshal payload2 = Except.ok { p with Operations := ops2 })
    (hW : watermarkEntries ops2 = watermarkEntries p.Operations)
    (hC : compressEntries ops2 = compressEntries p.Operations) :
    (∀ img : Img, (applyOps env img ops2).2 = (applyOps env img p.Operations).2) ∧
    compressParamsOf ops2 = compressParamsOf p.Operations ∧
    (compressParamsOf ops2).map (fun cp => outputKey p.ImageID cp.Format) =
      (compressParamsOf p.Operations).map (fun cp => outputKey p.ImageID cp.Format) ∧
    HandleImagePP env w payload2 = HandleImagePP env w payload ∧
    (∃ ws : List Event, (∀ ev ∈ ws, ev.isWatermark = true) ∧
      (transformCalls (HandleImagePP env w payload).log = ws ∨
       ∃ cp err, compressParamsOf p.Operations = some cp ∧
         transformCalls (HandleImagePP env w payload).log = ws ++ [Event.compress cp err])) ∧
    ((HandleImagePP env w payload).outcome = Outcome.ok →
      ∃ ws cp, (∀ ev ∈ ws, ev.isWatermark = true) ∧
        compressParamsOf p.Operations = some cp ∧
        transformCalls (HandleImagePP env w payload).log = ws ++ [Event.compress cp none]) := by
  have hcp : compressParamsOf ops2 = compressParamsOf p.Operations := by
    rw [compressParamsOf_compressEntries ops2, compressParamsOf_compressEntries p.Operations, hC]
  have hrun : HandleImagePP env w payload2 = HandleImagePP env w payload := by
    by_cases hv : validJob p
    · have hv2 : validJob { p with Operations := ops2 } := hv
      rw [HandleImagePP_valid env w payload p hp hv,
        HandleImagePP_valid env w payload2 _ hp2 hv2]
      exact processingStage_reorder env w p ops2 hW hC
    · have hv2 : ¬ validJob { p with Operations := ops2 } := hv
      rw [HandleImagePP_invalid env w payload p hp hv,
        HandleImagePP_invalid env w payload2 _ hp2 hv2]
  refine ⟨?_, hcp, by rw [hcp], hrun, (HandleImagePP_transformShape env w payload p hp).1,
    (HandleImagePP_transformShape env w payload p hp).2⟩
  intro img
  rw [applyOps_watermarkEntries env ops2, applyOps_watermarkEntries env p.Operations, hW]

/-- Witness of `reorder_same_run`: in `mixedOps` the compress entry sits
between the watermarks "A" and "B"; moved to the front, it gives the same
run, which encodes once, as png, after both watermarks. -/
theorem reorder_same_run_witness :
    watermarkEntries mixedOpsReordered = watermarkEntries mixedOps ∧
    compressEntries mixedOpsReordered = compressEntries mixedOps ∧
    HandleImagePP reorderEnv () [] = HandleImagePP reorderEnv () [1] ∧
    (HandleImagePP reorderEnv () [1]).log.map Event.isTransform =
      [false, false, false, false, true, true, true, false, false] ∧
    compressParamsOf mixedOps =
      some { Quality := 85, Format := "png", MaxWidth := 0, MaxHeight := 0 } :=
  ⟨rfl, rfl,
   (reorder_same_run reorderEnv () [1] [] (job7 mixedOps) mixedOpsReordered rfl rfl rfl
      rfl).2.2.2.1,
   rfl, rfl⟩

/-- C15 (the code at the failing input): for a compress entry whose params
is missing, null or a string, the derivation of the compress configuration
panics; the run on `{"type": "compress"}` stops after the decode, without
encoding and without a write of "failed". The watermark branch tolerates
the same omission: the run on `{"type": "watermark"}` applies the default
watermark and returns nil. -/
theorem compress_without_object_params_panics :
    compressParamsOf compressNoParams = none ∧
    compressParamsOf compressNullParams = none ∧
    compressParamsOf compressStringParams = none ∧
    (HandleImagePP (okEnv (job7 compressNoParams)) () []).outcome = Outcome.panic ∧
    (HandleImagePP (okEnv (job7 compressNoParams)) () []).log =
      [ Event.updateImageStatus 7 "processing" none,
        Event.newS3Service "b" none,
        Event.download "b" "k.jpg" none,
        Event.decode none ] ∧
    (HandleImagePP (okEnv (job7 watermarkNoParams)) () []).outcome = Outcome.ok ∧
    statusWrites (HandleImagePP (okEnv (job7 watermarkNoParams)) () []).log =
      ["processing", "completed"] := by
  refine ⟨rfl, rfl, rfl, rfl, by decide, rfl, rfl⟩

/-- C16 (the code at the failing input): for the envelope with `image_id`
2^32 + 7 the validation passes, the object is uploaded to
`processed/4294967303.jpg`, and both status writes go to row 7; for
`image_id` 2^32 they go to row 0. -/
theorem wide_id_redirects_status_writes :
    validJob jobWide ∧
    toInt32 4294967303 = 7 ∧
    (HandleImagePP (okEnv jobWide) () []).log =
      [ Event.updateImageStatus 7 "processing" none,
        Event.newS3Service "b" none,
        Event.download "b" "k.jpg" none,
        Event.decode none,
        Event.compress { Quality := 85, Format := "jpeg", MaxWidth := 0, MaxHeight := 0 } none,
        Event.upload "b" "processed/4294967303.jpg" [7] none,
        Event.updateImageStatus 7 "completed" none ] ∧
    validJob jobWideZero ∧
    (HandleImagePP (okEnv jobWideZero) () []).log =
      [ Event.updateImageStatus 0 "processing" none,
        Event.newS3Service "b" none,
        Event.download "b" "k.jpg" none,
        Event.decode none,
        Event.compress { Quality := 85, Format := "jpeg", MaxWidth := 0, MaxHeight := 0 } none,
        Event.upload "b" "processed/4294967296.jpg" [7] none,
        Event.updateImageStatus 0 "completed" none ] := by
  refine ⟨by decide, by decide, by decide, by decide, by decide⟩

/-! ## Lemmas on the submission handler -/

theorem enqueueStage_shape {σ : Type} (env : HandlerEnv σ) (w : σ) (req : ProcessImageRequest)
    (user : User) (image : Image) :
    EnqueueTail (enqueueStage env w req user image).log
      (enqueueStage env w req user image).response := by
  unfold enqueueStage EnqueueImageJob
  simp only
  cases hm : env.marshalJob
      { ImageID := image.ID, UserID := user.ID, BucketName := req.BucketName,
        ImageKey := req.ImageKey, Operations := operationMaps req.Operations } with
  | error e => exact Or.inl ⟨rfl, rfl⟩
  | ok payload =>
    simp only
    cases he : (env.Enqueue w TypeImageProcess payload
        { MaxRetry := 3, TimeoutMinutes := 10, Queue := "critical" }).1 with
    | some e => exact Or.inr (Or.inl ⟨_, _, _, e, rfl, rfl⟩)
    | none => exact Or.inr (Or.inr ⟨_, _, _, rfl, rfl⟩)

theorem createImageStage_shape {σ : Type} (env : HandlerEnv σ) (w : σ)
    (req : ProcessImageRequest) (user : User) :
    ImageTail (createImageStage env w req user).log
      (createImageStage env w req user).response := by
  unfold createImageStage
  simp only
  cases hc : (env.CreateImage w
      { UserID := user.ID, BucketName := req.BucketName, ImageKey := req.ImageKey,
        Status := "pending" }).1 with
  | error e => exact Or.inl ⟨_, e, rfl, rfl, rfl⟩
  | ok image => exact Or.inr ⟨_, _, rfl, rfl, enqueueStage_shape env _ req user image⟩

theorem userStage_shape {σ : Type} (env : HandlerEnv σ) (w : σ) (req : ProcessImageRequest) :
    HandlerShape (userStage env w req).log (userStage env w req).response := by
  unfold userStage
  simp only
  cases hg : (env.GetUserByEmail w req.Email).1 with
  | ok user =>
    exact Or.inr (Or.inr (Or.inr (Or.inl ⟨_, _, rfl, createImageStage_shape env _ req user⟩)))
  | error err =>
    simp only
    by_cases hn : err = ErrNoRows
    · subst hn
      simp only [if_true]
      cases hu : (env.CreateUser (env.GetUserByEmail w req.Email).2 req.Email).1 with
      | error e => exact Or.inr (Or.inr (Or.inl ⟨_, e, rfl, rfl⟩))
      | ok user =>
        exact Or.inr (Or.inr (Or.inr (Or.inr
          ⟨_, _, rfl, createImageStage_shape env _ req user⟩)))
    · simp only [hn, if_false]
      exact Or.inr (Or.inl ⟨_, err, hn, rfl, rfl⟩)

/-- The calls and the response of every run of `ProcessImage`. -/
theorem ProcessImage_shape {σ : Type} (env : HandlerEnv σ) (w : σ) (body : Bytes) :
    HandlerShape (ProcessImage env w body).log (ProcessImage env w body).response := by
  unfold ProcessImage
  cases hd : env.decodeRequest body with
  | error e => exact Or.inl ⟨rfl, rfl⟩
  | ok req =>
    simp only
    cases hv : env.validateStruct req with
    | some e => exact Or.inl ⟨rfl, rfl⟩
    | none => exact userStage_shape env w req

/-! ## The claims on the submission handler -/

/-- C13: in every run of `ProcessImage`, a task is enqueued only right after
a successful `CreateImage` whose status is "pending", and the enqueue is
the last call of the run; if the user lookup fails (other than by a miss),
`CreateUser` fails or `CreateImage` fails, nothing is enqueued and the
response is 500; if the enqueue fails the response is 500 (and, the enqueue
being the last call, no Job Store write follows); the only write of a Job
row is the creation with status "pending"; and the response is 202 only
after a successful enqueue. -/
theorem enqueue_after_pending_job {σ : Type} (env : HandlerEnv σ) (w : σ) (body : Bytes) :
    (∀ t pl o err, HEvent.enqueue t pl o err ∈ (ProcessImage env w body).log →
      ∃ pre params, params.Status = "pending" ∧
        (ProcessImage env w body).log =
          pre ++ [HEvent.createImage params none, HEvent.enqueue t pl o err]) ∧
    (∀ email e,
      (HEvent.getUserByEmail email (some e) ∈ (ProcessImage env w body).log ∧ e ≠ ErrNoRows) ∨
        HEvent.createUser email (some e) ∈ (ProcessImage env w body).log →
      (∀ t pl o err, HEvent.enqueue t pl o err ∉ (ProcessImage env w body).log) ∧
      (∀ params err, HEvent.createImage params err ∉ (ProcessImage env w body).log) ∧
      (ProcessImage env w body).response.code = 500) ∧
    (∀ params e, HEvent.createImage params (some e) ∈ (ProcessImage env w body).log →
      (∀ t pl o err, HEvent.enqueue t pl o err ∉ (ProcessImage env w body).log) ∧
      (ProcessImage env w body).response.code = 500) ∧
    (∀ t pl o e, HEvent.enqueue t pl o (some e) ∈ (ProcessImage env w body).log →
      (ProcessImage env w body).response.code = 500) ∧
    (∀ params err, HEvent.createImage params err ∈ (ProcessImage env w body).log →
      params.Status = "pending") ∧
    ((ProcessImage env w body).response.code = 202 →
      ∃ pre params t pl o, (ProcessImage env w body).log =
        pre ++ [HEvent.createImage params none, HEvent.enqueue t pl o none]) := by
  have hs := ProcessImage_shape env w body
  generalize (ProcessImage env w body).log = log at hs ⊢
  generalize (ProcessImage env w body).response = resp at hs ⊢
  rcases hs with ⟨rfl, hc⟩ | ⟨email0, e0, hne, rfl, hc⟩ | ⟨email0, e0, rfl, hc⟩ |
    ⟨email0, tail, rfl, ht⟩ | ⟨email0, tail, rfl, ht⟩
  · simp [hc]
  · simp [hc]
  · simp [hc]
  · rcases ht with ⟨params0, e0, hst, rfl, hc⟩ | ⟨params0, rest, hst, rfl, hr⟩
    · refine ⟨by simp, by simp, by simp [hc], by simp, ?_, by simp [hc]⟩
      intro params err hmem
      simp at hmem
      rw [hmem.1]; exact hst
    · rcases hr with ⟨rfl, hc⟩ | ⟨t0, pl0, o0, e0, rfl, hc⟩ | ⟨t0, pl0, o0, rfl, hc⟩
      · refine ⟨by simp, by simp, by simp, by simp, ?_, by simp [hc]⟩
        intro params err hmem
        simp at hmem
        rw [hmem.1]; exact hst
      · refine ⟨?_, by simp, by simp, by simp [hc], ?_, by simp [hc]⟩
        · intro t pl o err hmem
          simp at hmem
          obtain ⟨rfl, rfl, rfl, rfl⟩ := hmem
          exact ⟨[_], params0, hst, rfl⟩
        · intro params err hmem
          simp at hmem
          rw [hmem.1]; exact hst
      · refine ⟨?_, by simp, by simp, by simp, ?_, ?_⟩
        · intro t pl o err hmem
          simp at hmem
          obtain ⟨rfl, rfl, rfl, rfl⟩ := hmem
          exact ⟨[_], params0, hst, rfl⟩
        · intro params err hmem
          simp at hmem
          rw [hmem.1]; exact hst
        · intro _
          exact ⟨[_], params0, _, _, _, rfl⟩
  · rcases ht with ⟨params0, e0, hst, rfl, hc⟩ | ⟨params0, rest, hst, rfl, hr⟩
    · refine ⟨by simp, by simp, by simp [hc], by simp, ?_, by simp [hc]⟩
      intro params err hmem
      simp at hmem
      rw [hmem.1]; exact hst
    · rcases hr with ⟨rfl, hc⟩ | ⟨t0, pl0, o0, e0, rfl, hc⟩ | ⟨t0, pl0, o0, rfl, hc⟩
      · refine ⟨by simp, by simp, by simp, by simp, ?_, by simp [hc]⟩
        intro params err hmem
        simp at hmem
        rw [hmem.1]; exact hst
      · refine ⟨?_, by simp, by simp, by simp [hc], ?_, by simp [hc]⟩
        · intro t pl o err hmem
          simp at hmem
          obtain ⟨rfl, rfl, rfl, rfl⟩ := hmem
          exact ⟨[_, _], params0, hst, rfl⟩
        · intro params err hmem
          simp at hmem
          rw [hmem.1]; exact hst
      · refine ⟨?_, by simp, by simp, by simp, ?_, ?_⟩
        · intro t pl o err hmem
          simp at hmem
          obtain ⟨rfl, rfl, rfl, rfl⟩ := hmem
          exact ⟨[_, _], params0, hst, rfl⟩
        · intro params err hmem
          simp at hmem
          rw [hmem.1]; exact hst
        · intro _
          exact ⟨[_, _], params0, _, _, _, rfl⟩

/-- Witness of `enqueue_after_pending_job`: the user is found, the Job row
is created with status "pending", the enqueue fails; the response is 500
and nothing follows the enqueue. -/
theorem enqueue_after_pending_job_witness :
    (ProcessImage brokerDownEnv 0 []).log =
      [ HEvent.getUserByEmail "a@x.com" none,
        HEvent.createImage
          { UserID := 5, BucketName := "b", ImageKey := "k.jpg", Status := "pending" } none,
        HEvent.enqueue "process:image" [1]
          { MaxRetry := 3, TimeoutMinutes := 10, Queue := "critical" }
          (some (GoError.external "dial tcp: connection refused")) ] ∧
    (ProcessImage brokerDownEnv 0 []).response = RespondWithError 500 "Failed to queue job" ∧
    (ProcessImage brokerDownEnv 0 []).response.code = 500 :=
  ⟨by decide, by decide,
   (enqueue_after_pending_job brokerDownEnv 0 []).2.2.2.1 "process:image" [1]
     { MaxRetry := 3, TimeoutMinutes := 10, Queue := "critical" }
     (GoError.external "dial tcp: connection refused") (by decide)⟩

/-- C14 (counterexample): the lookup misses, `CreateUser` fails with a
uniqueness conflict because another request created the user in between,
and a second lookup would find user 5; the handler makes no second lookup
and no `CreateImage`: it answers 500 "Failed to create user". -/
theorem conflict_is_fatal :
    (ProcessImage raceEnv 0 []).log =
      [ HEvent.getUserByEmail "a@x.com" (some ErrNoRows),
        HEvent.createUser "a@x.com" (some uniqueViolation) ] ∧
    (ProcessImage raceEnv 0 []).response = RespondWithError 500 "Failed to create user" ∧
    (raceEnv.GetUserByEmail (ProcessImage raceEnv 0 []).world "a@x.com").1 =
      Except.ok { ID := 5, Email := "a@x.com" } := by
  refine ⟨by decide, by decide, rfl⟩

/-- C14 (amended): in `ProcessImage`, when the lookup by email misses and the
subsequent `CreateUser` fails, with a uniqueness conflict or any other
error, the handler ends the request with the response 500 "Failed to create
user": the lookup and the failed `CreateUser` are the only calls of the run
(no second lookup, no Job creation, no enqueue). -/
theorem create_user_failure_is_fatal {σ : Type} (env : HandlerEnv σ) (w : σ) (body : Bytes)
    (req : ProcessImageRequest) (e : GoError)
    (hd : env.decodeRequest body = Except.ok req) (hv : env.validateStruct req = none)
    (hmiss : (env.GetUserByEmail w req.Email).1 = Except.error ErrNoRows)
    (hfail : (env.CreateUser (env.GetUserByEmail w req.Email).2 req.Email).1 = Except.error e) :
    (ProcessImage env w body).log =
      [ HEvent.getUserByEmail req.Email (some ErrNoRows),
        HEvent.createUser req.Email (some e) ] ∧
    (ProcessImage env w body).response = RespondWithError 500 "Failed to create user" := by
  unfold ProcessImage
  simp only [hd, hv]
  unfold userStage
  simp only [hmiss, hfail, if_true]
  exact ⟨trivial, trivial⟩

/-- Witness of `create_user_failure_is_fatal`: the run on `raceEnv`. -/
theorem create_user_failure_is_fatal_witness :
    (ProcessImage raceEnv 0 []).log =
      [ HEvent.getUserByEmail demoRequest.Email (some ErrNoRows),
        HEvent.createUser demoRequest.Email (some uniqueViolation) ] ∧
    (ProcessImage raceEnv 0 []).response = RespondWithError 500 "Failed to create user" :=
  create_user_failure_is_fatal raceEnv 0 [] demoRequest uniqueViolation rfl rfl rfl rfl

/-! ## General form of the failing inputs -/

/-- A first compress entry whose params is not an object makes the
derivation of the compress configuration panic, whatever else the list
holds. -/
theorem compressParamsOf_not_object (pre post : List GoMap) (op : GoMap)
    (hpre : ∀ o ∈ pre, opType o ≠ "compress") (hop : opType op = "compress")
    (hm : (GoAny.index op "params").asMap = none) :
    compressParamsOf (pre ++ op :: post) = none := by
  induction pre with
  | nil => simp [compressParamsOf, hop, hm]
  | cons o rest ih =>
    have ho : opType o ≠ "compress" := hpre o (List.mem_cons_self _ _)
    simp only [List.cons_append, compressParamsOf, ho, if_false]
    exact ih (fun o2 h2 => hpre o2 (List.mem_cons_of_mem _ h2))

/-- When the derivation of the compress configuration panics, no run calls
the encoder and no run returns nil. -/
theorem no_encode_of_panic {σ Img : Type} (env : Env σ Img) (w : σ) (payload : Bytes)
    (p : Job) (hp : env.unmarshal payload = Except.ok p)
    (hnone : compressParamsOf p.Operations = none) :
    (∀ cp err, Event.compress cp err ∉ (HandleImagePP env w payload).log) ∧
    (HandleImagePP env w payload).outcome ≠ Outcome.ok := by
  have h1 : ∀ cp err, Event.compress cp err ∉ (HandleImagePP env w payload).log := by
    intro cp err hmem
    have h2 : compressParamsOf p.Operations = some cp :=
      HandleImagePP_eventOK env w payload p hp _ hmem
    rw [hnone] at h2
    cases h2
  refine ⟨h1, ?_⟩
  intro ho
  obtain ⟨ws, cp, _, hcp, _⟩ := (HandleImagePP_transformShape env w payload p hp).2 ho
  rw [hnone] at hcp
  cases hcp

/-- When the job ID fits 32 bits, every status write of a run targets the
row of that ID. -/
theorem status_writes_own_row {σ Img : Type} (env : Env σ Img) (w : σ) (payload : Bytes)
    (p : Job) (hp : env.unmarshal payload = Except.ok p)
    (h1 : -(2 ^ 31) ≤ p.ImageID) (h2 : p.ImageID < 2 ^ 31) :
    ∀ id s err, Event.updateImageStatus id s err ∈ (HandleImagePP env w payload).log →
      id = p.ImageID := by
  intro id s err hmem
  have h3 : id = toInt32 p.ImageID := HandleImagePP_eventOK env w payload p hp _ hmem
  rw [h3, toInt32_of_fits p.ImageID h1 h2]

/-- The status writes of every run target row `int32(image_id)`, while the
upload key carries `image_id` itself. -/
theorem status_writes_row_int32 {σ Img : Type} (env : Env σ Img) (w : σ) (payload : Bytes)
    (p : Job) (hp : env.unmarshal payload = Except.ok p) :
    (∀ id s err, Event.updateImageStatus id s err ∈ (HandleImagePP env w payload).log →
      id = toInt32 p.ImageID) ∧
    (∀ b k d err, Event.upload b k d err ∈ (HandleImagePP env w payload).log →
      ∃ cp : CompressParams, k = outputKey p.ImageID cp.Format) := by
  refine ⟨?_, ?_⟩
  · intro id s err hmem
    exact HandleImagePP_eventOK env w payload p hp _ hmem
  · intro b k d err hmem
    obtain ⟨_, cp, _, hk⟩ := HandleImagePP_eventOK env w payload p hp _ hmem
    exact ⟨cp, hk⟩

end Imagepp
